import Mathlib

/-! Siamese data converters: the CIFAR and ImageNet pipelines.

A shallow embedding of `caffe-convert_cifar_siamese_data.cpp` and
`convert_imagenet_siamese_data.cpp`.

Conventions of the embedding

* A byte is a natural number below 256; a file is the list of its bytes; a
  `std::string` used as a key is a `List Char`.
* A text stream read with `>>` into `std::string` variables is the list of its
  whitespace-separated tokens; an extraction from an exhausted stream leaves
  the variable unchanged, as the failed extraction does.
* C `int` values are integers, and every place where the source would leave
  the `int` range (or read memory it does not own, or read a variable a failed
  read left unwritten) yields `Failure.undefined`: the source fixes no
  behaviour there, and no theorem below concludes anything from it.
* A failed glog `CHECK` is `Failure.check`, carrying the program state at the
  point of the abort.
* The key-value store is the list of committed transactions together with the
  records put into the open transaction; the value put is the `Datum` itself
  (`SerializeToString` cannot fail on a `Datum`, which has no required field).
* Whether plain `char` is signed is left to the platform by C++; it is the
  parameter `char_signed` of `read_image` and of what calls it.
* The image reader `ReadImageToCVMat` belongs to Caffe; `main` takes it as a
  parameter and `ReadTwoImageToOneDatum` takes the two matrices it returned.
-/

namespace Siamese

/-! ## Common definitions -/

/-- Largest value of a C `int`. -/
def INT_MAX : Nat := 2147483647

/-- How a run stops early. -/
inductive Failure (σ : Type) where
  /-- A glog `CHECK` failed; `st` is the state reached. -/
  | check (msg : String) (st : σ)
  /-- An uncaught C++ exception ends the process; `st` is the state reached. -/
  | thrown (what : String) (st : σ)
  /-- The source has no defined behaviour here. -/
  | undefined
deriving DecidableEq

/-- The protobuf message `caffe::Datum`, with the fields the converters set. -/
structure Datum where
  channels : Nat
  height : Nat
  width : Nat
  data : List Nat
  label : Int
  encoded : Bool
deriving DecidableEq

/-- One `txn->Put(key, value)`. -/
abbrev PutRec := List Char × Datum

/-- Counted loop `for (int i = start; i < start + k; ++i) body`. -/
def forLoop {σ ε : Type} (body : Nat → σ → Except ε σ) : Nat → Nat → σ → Except ε σ
  | _, 0, s => .ok s
  | i, k + 1, s =>
    match body i s with
    | .error e => .error e
    | .ok s2 => forLoop body (i + 1) k s2

/-- The C predicate `isspace` in the "C" locale. -/
def isspace (c : Char) : Bool :=
  c = ' ' || c = '\t' || c = '\n' || c = '\x0b' || c = '\x0c' || c = '\r'

/-- Value of the leading run of decimal digits, accumulated left to right. -/
def atoiDigits : List Char → Nat → Nat
  | [], acc => acc
  | c :: cs, acc => if c.isDigit then atoiDigits cs (acc * 10 + (c.toNat - 48)) else acc

/-- The C function `atoi`: leading white space, an optional sign, then digits;
0 when there is no digit; `none` when the value is not representable. -/
def atoi (s : List Char) : Option Int :=
  let t := s.dropWhile isspace
  let v : Int :=
    match t with
    | '-' :: r => - (atoiDigits r 0 : Int)
    | '+' :: r => (atoiDigits r 0 : Int)
    | r => (atoiDigits r 0 : Int)
  if - (INT_MAX : Int) - 1 ≤ v ∧ v ≤ INT_MAX then some v else none

/-- Extraction `stream >> var` into a `std::string`: the next token, or the old
value of the variable when the stream is exhausted. -/
def extract (stream : List String) (var : String) : String × List String :=
  match stream with
  | [] => (var, [])
  | t :: rest => (t, rest)

/-- Output of `printf("%0<width>d", v)`. -/
def format_0d (width : Nat) (v : Int) : List Char :=
  let ds := Nat.toDigits 10 v.natAbs
  if v < 0 then '-' :: (List.replicate (width - 1 - ds.length) '0' ++ ds)
  else List.replicate (width - ds.length) '0' ++ ds

/-- The pair `int length = snprintf(key, size, "%0<width>d", v)` and
`string(key, length)`: the formatted text when it fits, the truncated text and
its terminator when `length = size`, nothing defined beyond. -/
def snprintf_key (size width : Nat) (v : Int) : Option (List Char) :=
  let full := format_0d width v
  if full.length < size then some full
  else if full.length = size then some (full.take (size - 1) ++ ['\x00'])
  else none

/-- The `w` low-order decimal digits of `n`, most significant first. -/
def fixed_digits : Nat → Nat → List Char
  | 0, _ => []
  | w + 1, n => fixed_digits w (n / 10) ++ [Nat.digitChar (n % 10)]

/-! ## CIFAR pipeline (`caffe-convert_cifar_siamese_data.cpp`) -/

def kCIFARSize : Nat := 32
def kCIFARImageNBytes : Nat := 3072
def kCIFARBatchSize : Nat := 10000

/-- The conversion `*label = label_char` of a byte held in a plain `char`;
whether plain `char` is signed is fixed by the platform (`char_signed`). -/
def char_to_int (char_signed : Bool) (b : Nat) : Int :=
  if char_signed && decide (128 ≤ b) then (b : Int) - 256 else (b : Int)

/-- The function `read_image`: seek to `(kCIFARImageNBytes + 1) * index`, read
one label byte, then `kCIFARImageNBytes` bytes into the buffer. The result is
the label and the bytes stored in the buffer; `none` when the offset is not a
valid `int` position or the record is not wholly inside the file (a read
fails and leaves its destination unwritten). -/
def read_image (char_signed : Bool) (file : List Nat) (index : Int) :
    Option (Int × List Nat) :=
  let off : Int := ((kCIFARImageNBytes + 1 : Nat) : Int) * index
  if 0 ≤ off ∧ off ≤ INT_MAX ∧ off.toNat + 1 + kCIFARImageNBytes ≤ file.length then
    some (char_to_int char_signed (file.getD off.toNat 0),
          (file.drop (off.toNat + 1)).take kCIFARImageNBytes)
  else none

/-- Variables of `convert_dataset` that live across loop iterations. -/
structure CifarState where
  c1 : String
  c2 : String
  s1 : String
  s2 : String
  /-- Unread tokens of `pair_train`. -/
  pair_train : List String
  /-- Unread tokens of `pair_test`. -/
  pair_test : List String
  /-- Records put into the open transaction `txn`. -/
  txn : List PutRec
  /-- Transactions committed to the train store. -/
  train_db : List (List PutRec)
  /-- Transactions committed to the test store. -/
  test_db : List (List PutRec)
deriving DecidableEq

/-- The line `pair >> c1 >> c2 >> s1 >> s2` on the train (`test = false`) or
test (`test = true`) pairing stream. -/
def read_pair (test : Bool) (st : CifarState) : CifarState :=
  let stream := if test then st.pair_test else st.pair_train
  let (c1, r1) := extract stream st.c1
  let (c2, r2) := extract r1 st.c2
  let (s1, r3) := extract r2 st.s1
  let (s2, r4) := extract r3 st.s2
  if test then { st with c1 := c1, c2 := c2, s1 := s1, s2 := s2, pair_test := r4 }
  else { st with c1 := c1, c2 := c2, s1 := s1, s2 := s2, pair_train := r4 }

/-- The record built by one iteration from the two buffers and labels. -/
def cifar_datum (buf1 buf2 : List Nat) (label1 label2 : Int) : Datum :=
  { channels := 6, height := kCIFARSize, width := kCIFARSize,
    data := buf1 ++ buf2,
    label := if label1 = label2 then 1 else 0,
    encoded := false }

/-- Body of the two loops of `convert_dataset` (they are the same code on the
train and on the test files). -/
def convert_body (char_signed test : Bool) (data_file : List Nat) (itemid : Nat)
    (st : CifarState) : Except (Failure CifarState) CifarState :=
  let st := read_pair test st
  match atoi st.c1.toList, atoi st.c2.toList with
  | some i, some j =>
    let r1 := read_image char_signed data_file i
    let r2 := read_image char_signed data_file j
    match r1 with
    | none => .error .undefined
    | some (label1, buf1) =>
      match atoi st.s1.toList with
      | none => .error .undefined
      | some e1 =>
        if label1 ≠ e1 then .error (.check "The image index is mismatch." st)
        else
          match r2 with
          | none => .error .undefined
          | some (label2, buf2) =>
            match atoi st.s2.toList with
            | none => .error .undefined
            | some e2 =>
              if label2 ≠ e2 then .error (.check "The image index is mismatch." st)
              else
                match snprintf_key 10 5 itemid with
                | none => .error .undefined
                | some key =>
                  .ok { st with txn := st.txn ++ [(key, cifar_datum buf1 buf2 label1 label2)] }
  | _, _ => .error .undefined

/-- State of `convert_dataset` before its first loop: both pairing streams
unread, the strings empty, the train store open with an empty transaction. -/
def cifar_init (train_pairs test_pairs : List String) : CifarState :=
  { c1 := "", c2 := "", s1 := "", s2 := "",
    pair_train := train_pairs, pair_test := test_pairs,
    txn := [], train_db := [], test_db := [] }

/-- The function `convert_dataset` on the contents of the two batch files and
the token streams of the two pairing files. -/
def convert_dataset (char_signed : Bool) (train_data test_data : List Nat)
    (train_pairs test_pairs : List String) : Except (Failure CifarState) CifarState :=
  let st0 := cifar_init train_pairs test_pairs
  match forLoop (convert_body char_signed false train_data) 0 (kCIFARBatchSize * 5) st0 with
  | .error e => .error e
  | .ok st1 =>
    let st1 := { st1 with train_db := st1.train_db ++ [st1.txn], txn := [] }
    match forLoop (convert_body char_signed true test_data) 0 kCIFARBatchSize st1 with
    | .error e => .error e
    | .ok st2 => .ok { st2 with test_db := st2.test_db ++ [st2.txn], txn := [] }

/-! ## ImageNet pipeline (`convert_imagenet_siamese_data.cpp`) -/

/-- The OpenCV depth code of unsigned bytes. -/
def CV_8U : Nat := 0

/-- A `cv::Mat` as the converter reads it: `rows`, `cols`, `channels()`,
`depth()`, and for each row `h` the bytes found at `ptr<uchar>(h)`. OpenCV
keeps `channels()` at most 512, so the sum of two channel counts is an `int`. -/
structure Mat where
  rows : Nat
  cols : Nat
  channels : Nat
  depth : Nat
  data : List (List Nat)
deriving DecidableEq

/-- The byte `cv_img.ptr<uchar>(h)[k]`, when row `h` holds it. -/
def Mat.ptr (m : Mat) (h k : Nat) : Option Nat :=
  match m.data[h]? with
  | none => none
  | some row => row[k]?

/-- State of the copy loops of `ReadTwoImageToOneDatum`: the `std::string
buffer`, the counter `img_index`, and (kept for the proofs only, the source
has no such variable) the indices stored into so far, in order. -/
structure BufState where
  buffer : List Nat
  img_index : Nat
  stores : List Nat
deriving DecidableEq

/-- Assignment `buffer[i] = v`. -/
def store (bs : BufState) (i v : Nat) : Except (Failure Unit) BufState :=
  if i < bs.buffer.length then
    .ok { bs with buffer := bs.buffer.set i v, stores := bs.stores ++ [i] }
  else .error .undefined

/-- Body of the innermost loop (over `c`). -/
def channel_body (cv_img1 cv_img2 : Mat) (datum_height datum_width img1_size h w c : Nat)
    (bs : BufState) : Except (Failure Unit) BufState :=
  let datum_index := (c * datum_height + h) * datum_width + w
  match cv_img1.ptr h bs.img_index with
  | none => .error .undefined
  | some a =>
    match store bs datum_index a with
    | .error e => .error e
    | .ok bs1 =>
      match cv_img2.ptr h bs.img_index with
      | none => .error .undefined
      | some b =>
        match store bs1 (datum_index + img1_size) b with
        | .error e => .error e
        | .ok bs2 => .ok { bs2 with img_index := bs2.img_index + 1 }

/-- Body of the middle loop (over `w`). -/
def col_body (cv_img1 cv_img2 : Mat) (datum_height datum_width img1_size h w : Nat)
    (bs : BufState) : Except (Failure Unit) BufState :=
  forLoop (channel_body cv_img1 cv_img2 datum_height datum_width img1_size h w)
    0 cv_img1.channels bs

/-- Body of the outer loop (over `h`), starting with `int img_index = 0`. -/
def row_body (cv_img1 cv_img2 : Mat) (datum_height datum_width img1_size h : Nat)
    (bs : BufState) : Except (Failure Unit) BufState :=
  forLoop (col_body cv_img1 cv_img2 datum_height datum_width img1_size h)
    0 datum_width { bs with img_index := 0 }

/-- The three nested copy loops on a buffer of `datum_size` blanks. -/
def merge_images (cv_img1 cv_img2 : Mat) : Except (Failure Unit) BufState :=
  let datum_channels := cv_img1.channels + cv_img2.channels
  let datum_height := cv_img1.rows
  let datum_width := cv_img1.cols
  let datum_size := datum_channels * datum_height * datum_width
  let img1_size := cv_img1.channels * cv_img1.rows * cv_img1.cols
  forLoop (row_body cv_img1 cv_img2 datum_height datum_width img1_size)
    0 datum_height { buffer := List.replicate datum_size 32, img_index := 0, stores := [] }

/-- The function `ReadTwoImageToOneDatum`, on the two matrices that
`ReadImageToCVMat` returned for `filename1` and `filename2`. The result is the
returned status and the contents of `*datum` (every field of which the function
overwrites). -/
def ReadTwoImageToOneDatum (cv_img1 cv_img2 : Mat) (label1 label2 : Int) :
    Except (Failure Unit) (Bool × Datum) :=
  if cv_img1.depth ≠ CV_8U then
    .error (.check "Image data type must be unsigned byte" ())
  else if cv_img2.depth ≠ CV_8U then
    .error (.check "Image data type must be unsigned byte" ())
  else if cv_img1.channels ≠ cv_img2.channels then
    .error (.check "The two image channels is mismatch" ())
  else
    let datum_channels := cv_img1.channels + cv_img2.channels
    let datum_height := cv_img1.rows
    let datum_width := cv_img1.cols
    if datum_channels * datum_height ≤ INT_MAX ∧
        datum_channels * datum_height * datum_width ≤ INT_MAX then
      match merge_images cv_img1 cv_img2 with
      | .error e => .error e
      | .ok bs =>
        .ok (true,
          { channels := datum_channels, height := datum_height, width := datum_width,
            data := bs.buffer,
            label := if label1 = label2 then 1 else 0,
            encoded := false })
    else .error .undefined

/-- Command-line flags that `main` reads in its loop. The flags `gray`,
`resize_height` and `resize_width` only reach the image reader, and `shuffle`
only the order of the list, both of which are inputs here. -/
structure Flags where
  check_size : Bool
  encoded : Bool
  encode_type : String
deriving DecidableEq

/-- Variables of `main` that live across loop iterations. -/
structure MainState where
  c1 : String
  c2 : String
  s1 : String
  s2 : String
  /-- Unread tokens of `pair_file`. -/
  pair_file : List String
  count : Nat
  data_size : Nat
  data_size_initialized : Bool
  /-- Records put into the open transaction `txn`. -/
  txn : List PutRec
  /-- Transactions committed to `db`. -/
  db : List (List PutRec)
deriving DecidableEq

/-- The line `pair_file >> c1 >> c2 >> s1 >> s2`. -/
def read_pair_main (st : MainState) : MainState :=
  let (c1, r1) := extract st.pair_file st.c1
  let (c2, r2) := extract r1 st.c2
  let (s1, r3) := extract r2 st.s1
  let (s2, r4) := extract r3 st.s2
  { st with c1 := c1, c2 := c2, s1 := s1, s2 := s2, pair_file := r4 }

/-- Element `lines[i]` of the vector, for an `int` index. -/
def line_at (lines : List (String × Int)) (i : Int) : Option (String × Int) :=
  if 0 ≤ i then lines[i.toNat]? else none

/-- Lines 165 to 174 of `main`: put the record, count it, and commit the
transaction (opening a new one) when the count reaches a multiple of 1000. -/
def put_record (st : MainState) (key : List Char) (datum : Datum) : MainState :=
  let txn := st.txn ++ [(key, datum)]
  let count := st.count + 1
  if count % 1000 = 0 then { st with count := count, db := st.db ++ [txn], txn := [] }
  else { st with count := count, txn := txn }

/-- Lines 149 to 158 of `main`: with `check_size`, the first record sets
`data_size` and every later one is checked against it. -/
def check_size_step (flags : Flags) (st : MainState) (datum : Datum) :
    Except (Failure MainState) MainState :=
  if flags.check_size then
    if ¬ st.data_size_initialized then
      .ok { st with data_size := datum.channels * datum.height * datum.width,
                    data_size_initialized := true }
    else if datum.data.length = st.data_size then .ok st
    else .error (.check "Incorrect data field size" st)
  else .ok st

/-- Body of the loop of `main` over `line_id`. The image reader
`ReadImageToCVMat` (with the resize and colour arguments of the run) is the
parameter `reader`, applied to the full path. -/
def main_body (flags : Flags) (reader : String → Mat) (root_folder : String)
    (lines : List (String × Int)) (line_id : Nat) (st : MainState) :
    Except (Failure MainState) MainState :=
  let st := read_pair_main st
  match atoi st.c1.toList, atoi st.c2.toList with
  | some line_id1, some line_id2 =>
    match line_at lines line_id1, line_at lines line_id2 with
    | some (name1, label1), some (name2, label2) =>
      if flags.encoded ∧ flags.encode_type.length = 0 ∧ ¬ ('.' ∈ name1.toList) then
        .error (.thrown "std::out_of_range" st)
      else
        match ReadTwoImageToOneDatum (reader (root_folder ++ name1)) (reader (root_folder ++ name2))
            label1 label2 with
        | .error (.check msg _) => .error (.check msg st)
        | .error (.thrown what _) => .error (.thrown what st)
        | .error .undefined => .error .undefined
        | .ok (status, datum) =>
          if status = false then .ok st
          else
            match check_size_step flags st datum with
            | .error e => .error e
            | .ok st =>
              match snprintf_key 256 8 line_id with
              | none => .error .undefined
              | some key => .ok (put_record st key datum)
    | _, _ => .error .undefined
  | _, _ => .error .undefined

/-- Lines 176 to 180 of `main`: commit the last, partial transaction. -/
def write_last_batch (st : MainState) : MainState :=
  if st.count % 1000 ≠ 0 then { st with db := st.db ++ [st.txn], txn := [] } else st

/-- State of `main` before its loop. -/
def main_init (pair_file : List String) : MainState :=
  { c1 := "", c2 := "", s1 := "", s2 := "", pair_file := pair_file,
    count := 0, data_size := 0, data_size_initialized := false, txn := [], db := [] }

/-- The function `main` from the opening of the store on, given the parsed
list file `lines` and the token stream of the pairing file. -/
def main (flags : Flags) (reader : String → Mat) (root_folder : String)
    (lines : List (String × Int)) (pair_file : List String) :
    Except (Failure MainState) MainState :=
  if lines.length ≤ INT_MAX then
    let st0 := main_init pair_file
    match forLoop (main_body flags reader root_folder lines) 0 lines.length st0 with
    | .error e => .error e
    | .ok st => .ok (write_last_batch st)
  else .error .undefined


/-! ## Pairing files given line by line -/

/-- One line of a pairing file: its four tokens. -/
structure PairLine where
  c1 : String
  c2 : String
  s1 : String
  s2 : String
deriving DecidableEq

/-- Token stream of a pairing file made of the given lines. -/
def pair_tokens : List PairLine → List String
  | [] => []
  | l :: ls => l.c1 :: l.c2 :: l.s1 :: l.s2 :: pair_tokens ls

/-- The pairing stream the loop of `convert_dataset` selected by `test` reads. -/
def pair_stream (test : Bool) (st : CifarState) : List String :=
  if test then st.pair_test else st.pair_train

/-- The record of a pairing line in the CIFAR pipeline when both indices are
read successfully and both labels agree with the line, `none` otherwise. -/
def cifar_line_datum (char_signed : Bool) (data_file : List Nat) (l : PairLine) :
    Option Datum :=
  match atoi l.c1.toList, atoi l.c2.toList, atoi l.s1.toList, atoi l.s2.toList with
  | some i, some j, some e1, some e2 =>
    match read_image char_signed data_file i, read_image char_signed data_file j with
    | some (l1, b1), some (l2, b2) =>
      if l1 = e1 ∧ l2 = e2 then some (cifar_datum b1 b2 l1 l2) else none
    | _, _ => none
  | _, _, _, _ => none

/-- The records of consecutive valid pairing lines, keyed from `k` on. -/
def cifar_expected (char_signed : Bool) (data_file : List Nat) :
    Nat → List PairLine → List PutRec
  | _, [] => []
  | k, l :: ls =>
    match cifar_line_datum char_signed data_file l with
    | some d => (fixed_digits 5 k, d) :: cifar_expected char_signed data_file (k + 1) ls
    | none => []

/-! ## Decoded images and the invariant of the copy loops -/

/-- The matrix is a decoded 8-bit image of height `H`, width `W` and `C`
channels, each row holding its `W * C` bytes. -/
def Mat.decoded (m : Mat) (H W C : Nat) : Prop :=
  m.rows = H ∧ m.cols = W ∧ m.channels = C ∧ m.depth = CV_8U ∧
  m.data.length = H ∧ ∀ row ∈ m.data, row.length = W * C

/-- Pixel `(h, w, c)` of an image stored row by row with interleaved channels:
the byte at offset `w * channels + c` of row `h`. -/
def Mat.pixel (m : Mat) (h w c : Nat) : Nat :=
  (m.data.getD h []).getD (w * m.channels + c) 0

/-- State reached by the copy loops after `t` iterations of the innermost
body: the pixels visited so far are in place, and each store so far went to
the position of a visited pixel, no position twice. -/
def CopyInv (A B : Mat) (H W C t : Nat) (bs : BufState) : Prop :=
  bs.buffer.length = 2 * (C * H * W) ∧
  (∀ h w c, h < H → w < W → c < C → (h * W + w) * C + c < t →
    bs.buffer[(c * H + h) * W + w]? = some (A.pixel h w c) ∧
    bs.buffer[(c * H + h) * W + w + C * H * W]? = some (B.pixel h w c)) ∧
  bs.stores.length = 2 * t ∧ bs.stores.Nodup ∧
  (∀ p ∈ bs.stores, ∃ h w c, h < H ∧ w < W ∧ c < C ∧ (h * W + w) * C + c < t ∧
    (p = (c * H + h) * W + w ∨ p = (c * H + h) * W + w + C * H * W))

/-- The record of a pairing line in the ImageNet pipeline when both indices
lie in the list and the record is built, `none` otherwise. -/
def main_line_datum (flags : Flags) (reader : String → Mat) (root_folder : String)
    (lines : List (String × Int)) (l : PairLine) : Option Datum :=
  match atoi l.c1.toList, atoi l.c2.toList with
  | some line_id1, some line_id2 =>
    match line_at lines line_id1, line_at lines line_id2 with
    | some (name1, label1), some (name2, label2) =>
      if flags.encoded ∧ flags.encode_type.length = 0 ∧ ¬ ('.' ∈ name1.toList) then none
      else
        match ReadTwoImageToOneDatum (reader (root_folder ++ name1))
            (reader (root_folder ++ name2)) label1 label2 with
        | .ok (true, d) => some d
        | _ => none
    | _, _ => none
  | _, _ => none

/-- The records of consecutive valid pairing lines, keyed from `k` on. -/
def main_expected (flags : Flags) (reader : String → Mat) (root_folder : String)
    (lines : List (String × Int)) : Nat → List PairLine → List PutRec
  | _, [] => []
  | k, l :: ls =>
    match main_line_datum flags reader root_folder lines l with
    | some d => (format_0d 8 k, d) :: main_expected flags reader root_folder lines (k + 1) ls
    | none => []

/-! ## Invariant of the transaction batching of `main` -/

/-- The open transaction holds fewer than 1000 records, every committed
transaction holds exactly 1000, and `count` is the number of records put. -/
def TxnInv (st : MainState) : Prop :=
  st.txn.length < 1000 ∧ st.count = 1000 * st.db.length + st.txn.length ∧
  ∀ t ∈ st.db, t.length = 1000

/-- With `check_size` on, after `k` completed iterations: `k` records have
been put, `data_size` is initialised exactly when `k > 0`, and it is then the
data length of the first record put. -/
def SizeInv (k : Nat) (st : MainState) : Prop :=
  (st.db.flatten ++ st.txn).length = k ∧
  (st.data_size_initialized = true ↔ 0 < k) ∧
  (0 < k → ∃ first, (st.db.flatten ++ st.txn).head? = some first ∧
    st.data_size = first.2.data.length)

/-! ## Concrete inputs used by the examples -/

/-- A batch file of two samples with labels 3 and 3. -/
def batch_3_3 : List Nat := (3 :: List.replicate 3072 0) ++ (3 :: List.replicate 3072 1)

/-- A batch file of two samples with labels 3 and 7. -/
def batch_3_7 : List Nat := (3 :: List.replicate 3072 0) ++ (7 :: List.replicate 3072 1)

/-- A 1 x 1 single-channel image holding the byte `v`. -/
def pixel (v : Nat) : Mat :=
  { rows := 1, cols := 1, channels := 1, depth := CV_8U, data := [[v]] }

/-- A sample whose bytes at offsets 1 and 3 differ. -/
def striped_sample : List Nat := [0, 1, 0, 2] ++ List.replicate 3068 0

/-- A batch file holding `striped_sample` with label 5. -/
def batch_striped : List Nat := 5 :: striped_sample

/-- A 2 x 2 image of 3 channels, rows interleaved as (b, g, r) triples. -/
def image_a : Mat :=
  { rows := 2, cols := 2, channels := 3, depth := CV_8U,
    data := [[1, 2, 3, 4, 5, 6], [7, 8, 9, 10, 11, 12]] }

/-- A second 2 x 2 image of 3 channels. -/
def image_b : Mat :=
  { rows := 2, cols := 2, channels := 3, depth := CV_8U,
    data := [[21, 22, 23, 24, 25, 26], [27, 28, 29, 30, 31, 32]] }

/-- The matrix `ReadImageToCVMat` returns for a file it cannot decode: a
default `cv::Mat`, with no rows and columns, `channels()` 1 and `depth()`
`CV_8U`. -/
def empty_mat : Mat :=
  { rows := 0, cols := 0, channels := 1, depth := CV_8U, data := [] }

/-- The pairing line `0 1 3 3`. -/
def line_0_1_3_3 : PairLine := { c1 := "0", c2 := "1", s1 := "3", s2 := "3" }

/-- The pairing line `0 1 1 1`. -/
def line_0_1_1_1 : PairLine := { c1 := "0", c2 := "1", s1 := "1", s2 := "1" }

/-- The pairing line `0 0 1 1`. -/
def line_0_0_1_1 : PairLine := { c1 := "0", c2 := "0", s1 := "1", s2 := "1" }

/-- All flags at their defaults. -/
def flags_default : Flags := { check_size := false, encoded := false, encode_type := "" }

/-- The defaults with `check_size` on. -/
def flags_check_size : Flags := { check_size := true, encoded := false, encode_type := "" }

/-- A list file of two images with label 1. -/
def list_two : List (String × Int) := [("a", 1), ("b", 1)]

/-- The pairing line `1 1 1 1`. -/
def line_1_1_1_1 : PairLine := { c1 := "1", c2 := "1", s1 := "1", s2 := "1" }

/-- A black image of height `H`, width `W` and `C` channels. -/
def black_image (H W C : Nat) : Mat :=
  { rows := H, cols := W, channels := C, depth := CV_8U,
    data := List.replicate H (List.replicate (W * C) 0) }

/-- An image reader that returns a 32 x 32 image of 3 channels (3072 bytes)
for the file `a` and one of 2 channels (2048 bytes) for any other path. -/
def reader_a_b (path : String) : Mat :=
  if path = "a" then black_image 32 32 3 else black_image 32 32 2

/-- An image reader that returns a 3-channel image for the file `a` and a
single-channel image for any other path. -/
def reader_mixed (path : String) : Mat :=
  if path = "a" then image_a else pixel 7

/-- A batch file of one sample whose label byte is 200. -/
def batch_200 : List Nat := 200 :: List.replicate 3072 0

/-- The pairing line `0 0 -56 -56`. -/
def line_0_0_neg56 : PairLine := { c1 := "0", c2 := "0", s1 := "-56", s2 := "-56" }
/-! ## Loops -/

theorem forLoop_add {σ ε : Type} (body : Nat → σ → Except ε σ) (a b : Nat) :
    ∀ (i : Nat) (s : σ), forLoop body i (a + b) s =
      match forLoop body i a s with
      | .error e => .error e
      | .ok s1 => forLoop body (i + a) b s1 := by
  induction a with
  | zero => intro i s; simp [forLoop]
  | succ a ih =>
    intro i s
    have h : a + 1 + b = (a + b) + 1 := by omega
    rw [h]
    simp only [forLoop]
    cases hb : body i s with
    | error e => simp
    | ok s2 =>
      simp only [ih]
      have h2 : i + 1 + a = i + (a + 1) := by omega
      rw [h2]

/-- A counted loop whose body keeps an invariant and cannot fail under it runs
to completion and ends in a state satisfying the invariant. -/
theorem forLoop_total {σ ε : Type} (body : Nat → σ → Except ε σ) (Inv : Nat → σ → Prop)
    (n : Nat) :
    ∀ (i : Nat) (s : σ), Inv i s →
      (∀ k t, i ≤ k → k < i + n → Inv k t → ∃ t2, body k t = .ok t2 ∧ Inv (k + 1) t2) →
      ∃ s2, forLoop body i n s = .ok s2 ∧ Inv (i + n) s2 := by
  induction n with
  | zero => intro i s h _; exact ⟨s, rfl, h⟩
  | succ n ih =>
    intro i s h hstep
    obtain ⟨t2, hb, hinv⟩ := hstep i s (le_refl _) (by omega) h
    obtain ⟨s2, hl, hfin⟩ := ih (i + 1) t2 hinv
      (fun k t hk1 hk2 hk => hstep k t (by omega) (by omega) hk)
    refine ⟨s2, ?_, ?_⟩
    · simp only [forLoop, hb]; exact hl
    · have : i + (n + 1) = i + 1 + n := by omega
      rw [this]; exact hfin

/-- An indexed property kept by every successful iteration holds after a
completed loop. -/
theorem forLoop_keeps {σ ε : Type} (body : Nat → σ → Except ε σ) (P : Nat → σ → Prop)
    (hstep : ∀ k t t2, body k t = .ok t2 → P k t → P (k + 1) t2) (n : Nat) :
    ∀ (i : Nat) (s s2 : σ), forLoop body i n s = .ok s2 → P i s → P (i + n) s2 := by
  induction n with
  | zero => intro i s s2 h hp; simp [forLoop] at h; subst h; exact hp
  | succ n ih =>
    intro i s s2 h hp
    simp only [forLoop] at h
    cases hb : body i s with
    | error e => simp [hb] at h
    | ok t =>
      simp only [hb] at h
      have := ih (i + 1) t s2 h (hstep i s t hb hp)
      have e : i + (n + 1) = i + 1 + n := by omega
      rw [e]; exact this

/-- A loop whose first `k` iterations succeed and whose next one fails, fails
with that failure. -/
theorem forLoop_fails_at {σ ε : Type} (body : Nat → σ → Except ε σ) (i k n : Nat) (s sk : σ)
    (e : ε) (hk : k < n) (hpre : forLoop body i k s = .ok sk)
    (hfail : body (i + k) sk = .error e) : forLoop body i n s = .error e := by
  obtain ⟨m, rfl⟩ : ∃ m, n = k + (m + 1) := ⟨n - k - 1, by omega⟩
  rw [forLoop_add, hpre]
  simp only [forLoop, hfail]

/-! ## `read_image` -/

theorem read_image_eq (cs : Bool) (F : List Nat) (i : Nat)
    (hoff : 3073 * i ≤ INT_MAX) (hlen : 3073 * (i + 1) ≤ F.length) :
    read_image cs F (i : Int) =
      some (char_to_int cs (F.getD (3073 * i) 0), (F.drop (3073 * i + 1)).take 3072) := by
  have e : (((kCIFARImageNBytes + 1 : Nat) : Int) * (i : Int)) = ((3073 * i : Nat) : Int) := by
    simp [kCIFARImageNBytes]
  unfold read_image
  simp only [e, Int.toNat_ofNat]
  rw [if_pos]
  · rfl
  · refine ⟨Int.ofNat_nonneg _, ?_, ?_⟩
    · exact_mod_cast hoff
    · simp only [kCIFARImageNBytes]; omega

theorem read_image_at (cs : Bool) (pre P post : List Nat) (b i : Nat)
    (hpre : pre.length = 3073 * i) (hP : P.length = 3072) (hoff : 3073 * i ≤ INT_MAX) :
    read_image cs (pre ++ b :: P ++ post) (i : Int) = some (char_to_int cs b, P) := by
  rw [read_image_eq cs _ i hoff (by simp [hpre, hP]; omega)]
  congr 2
  · rw [← hpre, List.getD_eq_getElem?_getD, List.append_assoc,
      List.getElem?_append_right (le_refl _)]
    simp
  · rw [← hpre]
    have : pre ++ b :: P ++ post = (pre ++ [b]) ++ (P ++ post) := by simp
    rw [this, List.drop_left' (by simp)]
    rw [← hP]; simp


theorem convert_body_ok (cs test : Bool) (F : List Nat) (itemid : Nat) (st st2 : CifarState)
    (h : convert_body cs test F itemid st = .ok st2) :
    ∃ i j l1 b1 l2 b2 key,
      atoi (read_pair test st).c1.toList = some i ∧
      atoi (read_pair test st).c2.toList = some j ∧
      read_image cs F i = some (l1, b1) ∧
      read_image cs F j = some (l2, b2) ∧
      atoi (read_pair test st).s1.toList = some l1 ∧
      atoi (read_pair test st).s2.toList = some l2 ∧
      snprintf_key 10 5 itemid = some key ∧
      st2 = { read_pair test st with
              txn := (read_pair test st).txn ++ [(key, cifar_datum b1 b2 l1 l2)] } := by
  unfold convert_body at h
  simp only at h
  split at h
  · rename_i i j hi hj
    split at h
    · simp at h
    · rename_i l1 b1 h1
      split at h
      · simp at h
      · rename_i e1 he1
        split at h
        · simp at h
        · rename_i hl1
          split at h
          · simp at h
          · rename_i l2 b2 h2
            split at h
            · simp at h
            · rename_i e2 he2
              split at h
              · simp at h
              · rename_i hl2
                split at h
                · simp at h
                · rename_i key hkey
                  simp only [ne_eq, not_not] at hl1 hl2
                  subst hl1 hl2
                  refine ⟨i, j, l1, b1, l2, b2, key, hi, hj, h1, h2, he1, he2, hkey, ?_⟩
                  simp only [Except.ok.injEq] at h
                  exact h.symm
  · simp at h

theorem convert_body_success (cs test : Bool) (F : List Nat) (itemid : Nat) (st : CifarState)
    (i j l1 l2 : Int) (b1 b2 : List Nat) (key : List Char)
    (hi : atoi (read_pair test st).c1.toList = some i)
    (hj : atoi (read_pair test st).c2.toList = some j)
    (h1 : read_image cs F i = some (l1, b1))
    (h2 : read_image cs F j = some (l2, b2))
    (he1 : atoi (read_pair test st).s1.toList = some l1)
    (he2 : atoi (read_pair test st).s2.toList = some l2)
    (hkey : snprintf_key 10 5 itemid = some key) :
    convert_body cs test F itemid st =
      .ok { read_pair test st with
            txn := (read_pair test st).txn ++ [(key, cifar_datum b1 b2 l1 l2)] } := by
  unfold convert_body
  simp only [hi, hj, h1, h2, he1, he2, hkey, ne_eq, not_true_eq_false, if_false]

theorem read_pair_txn (test : Bool) (st : CifarState) :
    (read_pair test st).txn = st.txn ∧ (read_pair test st).train_db = st.train_db ∧
      (read_pair test st).test_db = st.test_db := by
  unfold read_pair
  cases test <;> simp

theorem read_image_single (cs : Bool) (b : Nat) (P : List Nat) (hP : P.length = 3072) :
    read_image cs (b :: P) 0 = some (char_to_int cs b, P) := by
  have h := read_image_at cs [] P [] b 0 rfl hP (by decide)
  simpa using h

theorem read_image_spec_aux (cs : Bool) (F : List Nat) (i : Nat)
    (hoff : 3073 * i ≤ INT_MAX) (hlen : 3073 * (i + 1) ≤ F.length) :
    ∃ label buf, read_image cs F (i : Int) = some (label, buf) ∧
      buf.length = 3072 ∧
      (∀ k, k < 3072 → buf.getD k 0 = F.getD (3073 * i + 1 + k) 0) ∧
      (F.getD (3073 * i) 0 < 128 → label = (F.getD (3073 * i) 0 : Int)) ∧
      (cs = false → label = (F.getD (3073 * i) 0 : Int)) ∧
      (cs = true → 128 ≤ F.getD (3073 * i) 0 → label = (F.getD (3073 * i) 0 : Int) - 256) := by
  refine ⟨_, _, read_image_eq cs F i hoff hlen, ?_, ?_, ?_, ?_, ?_⟩
  · simp only [List.length_take, List.length_drop]; omega
  · intro k hk
    have h1 : 3073 * i + 1 + k < F.length := by omega
    have h2 : k < (List.take 3072 (List.drop (3073 * i + 1) F)).length := by
      simp only [List.length_take, List.length_drop]; omega
    rw [List.getD_eq_getElem _ _ h2, List.getD_eq_getElem _ _ h1, List.getElem_take,
      List.getElem_drop]
  · generalize F.getD (3073 * i) 0 = b
    intro h
    have : ¬ (128 ≤ b) := by omega
    simp [char_to_int, this]
  · intro h; simp [char_to_int, h]
  · generalize F.getD (3073 * i) 0 = b
    intro h h2; simp [char_to_int, h, h2]

/-- C10 (amended): for a record lying wholly inside the file (and an offset
within `int`), `read_image` seeks to `3073 * i`, fills the buffer with exactly
the 3072 bytes after the label byte, and returns the label byte converted
through plain `char`: the byte itself when it is below 128 or plain `char` is
unsigned, the byte minus 256 when it is 128 or more and plain `char` is
signed. -/
theorem read_image_spec (cs : Bool) (F : List Nat) (i : Nat)
    (hoff : 3073 * i ≤ INT_MAX) (hlen : 3073 * (i + 1) ≤ F.length) :
    ∃ label buf, read_image cs F (i : Int) = some (label, buf) ∧
      buf.length = 3072 ∧
      (∀ k, k < 3072 → buf.getD k 0 = F.getD (3073 * i + 1 + k) 0) ∧
      (F.getD (3073 * i) 0 < 128 → label = (F.getD (3073 * i) 0 : Int)) ∧
      (cs = false → label = (F.getD (3073 * i) 0 : Int)) ∧
      (cs = true → 128 ≤ F.getD (3073 * i) 0 → label = (F.getD (3073 * i) 0 : Int) - 256) :=
  read_image_spec_aux cs F i hoff hlen

/-- The statement of `read_image_spec` on a one-record file with label byte 3. -/
theorem read_image_spec_witness :
    ∃ label buf, read_image true (3 :: List.replicate 3072 9) ((0 : Nat) : Int) = some (label, buf) ∧
      buf.length = 3072 ∧
      (∀ k, k < 3072 → buf.getD k 0 = (3 :: List.replicate 3072 9).getD (3073 * 0 + 1 + k) 0) ∧
      ((3 :: List.replicate 3072 9).getD (3073 * 0) 0 < 128 →
        label = ((3 :: List.replicate 3072 9).getD (3073 * 0) 0 : Int)) ∧
      (true = false → label = ((3 :: List.replicate 3072 9).getD (3073 * 0) 0 : Int)) ∧
      (true = true → 128 ≤ (3 :: List.replicate 3072 9).getD (3073 * 0) 0 →
        label = ((3 :: List.replicate 3072 9).getD (3073 * 0) 0 : Int) - 256) :=
  read_image_spec true (3 :: List.replicate 3072 9) 0 (by decide)
    (by simp only [List.length_cons, List.length_replicate]; decide)

/-- C10 (counterexample): with a signed plain `char`, the label byte 200 of a
one-record file comes back as -56, not as 200. -/
theorem read_image_label_sign_extended :
    3073 * (0 + 1) ≤ (200 :: List.replicate 3072 0).length ∧
    (200 :: List.replicate 3072 0).getD (3073 * 0) 0 = 200 ∧
    (read_image true (200 :: List.replicate 3072 0) 0).map Prod.fst = some (-56) ∧
    (read_image true (200 :: List.replicate 3072 0) 0).map Prod.fst ≠ some 200 := by
  have h := read_image_single true 200 (List.replicate 3072 0) (List.length_replicate _ _)
  refine ⟨by simp only [List.length_cons, List.length_replicate]; decide, rfl, ?_, ?_⟩
  · rw [h]; decide
  · rw [h]; decide

theorem ReadTwo_ok (A B : Mat) (label1 label2 : Int) (status : Bool) (d : Datum)
    (h : ReadTwoImageToOneDatum A B label1 label2 = .ok (status, d)) :
    status = true ∧ A.depth = CV_8U ∧ B.depth = CV_8U ∧ A.channels = B.channels ∧
      ∃ bs, merge_images A B = .ok bs ∧
        d = { channels := A.channels + B.channels, height := A.rows, width := A.cols,
              data := bs.buffer, label := if label1 = label2 then 1 else 0,
              encoded := false } := by
  unfold ReadTwoImageToOneDatum at h
  split at h
  · simp at h
  · split at h
    · simp at h
    · split at h
      · simp at h
      · rename_i h1 h2 h3
        simp only at h
        split at h
        · split at h
          · simp at h
          · rename_i bs hbs
            simp only [Except.ok.injEq, Prod.mk.injEq] at h
            simp only [ne_eq, not_not] at h1 h2 h3
            exact ⟨h.1.symm, h1, h2, h3, bs, hbs, h.2.symm⟩
        · simp at h


theorem read_image_some (cs : Bool) (F : List Nat) (x l : Int) (b : List Nat)
    (h : read_image cs F x = some (l, b)) :
    ∃ i : Nat, x = (i : Int) ∧ 3073 * i ≤ INT_MAX ∧ 3073 * (i + 1) ≤ F.length := by
  unfold read_image at h
  simp only [kCIFARImageNBytes] at h
  split at h
  · rename_i hc
    obtain ⟨h0, h1, h2⟩ := hc
    have hx : 0 ≤ x := by
      have : (0 : Int) ≤ 3073 * x := by simpa using h0
      omega
    refine ⟨x.toNat, (Int.toNat_of_nonneg hx).symm, ?_, ?_⟩
    · have : ((3073 * x.toNat : Nat) : Int) ≤ (INT_MAX : Int) := by
        push_cast; rw [Int.toNat_of_nonneg hx]; simpa using h1
      exact_mod_cast this
    · have e : ((3072 + 1 : Nat) : Int) * x = ((3073 * x.toNat : Nat) : Int) := by
        push_cast; rw [Int.toNat_of_nonneg hx]
      rw [e, Int.toNat_ofNat] at h2
      omega
  · simp at h

/-- C1: in both pipelines the label of a built record is 1 when the two
samples' labels are equal and 0 otherwise; in `convert_dataset` the labels are
those `read_image` returned, in `ReadTwoImageToOneDatum` they are the two
label arguments. -/
theorem pair_label_is_match_indicator :
    (∀ (cs test : Bool) (F : List Nat) (itemid : Nat) (st st2 : CifarState),
      convert_body cs test F itemid st = .ok st2 →
      ∃ i j l1 b1 l2 b2 key d,
        atoi (read_pair test st).c1.toList = some i ∧
        atoi (read_pair test st).c2.toList = some j ∧
        read_image cs F i = some (l1, b1) ∧ read_image cs F j = some (l2, b2) ∧
        st2.txn = st.txn ++ [(key, d)] ∧
        (l1 = l2 → d.label = 1) ∧ (l1 ≠ l2 → d.label = 0)) ∧
    (∀ (A B : Mat) (label1 label2 : Int) (status : Bool) (d : Datum),
      ReadTwoImageToOneDatum A B label1 label2 = .ok (status, d) →
      (label1 = label2 → d.label = 1) ∧ (label1 ≠ label2 → d.label = 0)) := by
  constructor
  · intro cs test F itemid st st2 h
    obtain ⟨i, j, l1, b1, l2, b2, key, hi, hj, h1, h2, -, -, -, rfl⟩ :=
      convert_body_ok cs test F itemid st st2 h
    refine ⟨i, j, l1, b1, l2, b2, key, cifar_datum b1 b2 l1 l2, hi, hj, h1, h2, ?_, ?_, ?_⟩
    · simp [(read_pair_txn test st).1]
    · intro e; simp [cifar_datum, e]
    · intro e; simp [cifar_datum, e]
  · intro A B label1 label2 status d h
    obtain ⟨-, -, -, -, bs, -, rfl⟩ := ReadTwo_ok A B label1 label2 status d h
    constructor
    · intro e; simp [e]
    · intro e; simp [e]

/-- Reading the first and the second record of a two-record file. -/
theorem read_image_two (cs : Bool) (a b : Nat) (P Q : List Nat)
    (hP : P.length = 3072) (hQ : Q.length = 3072) :
    read_image cs ((a :: P) ++ (b :: Q)) 0 = some (char_to_int cs a, P) ∧
    read_image cs ((a :: P) ++ (b :: Q)) 1 = some (char_to_int cs b, Q) := by
  constructor
  · have h := read_image_at cs [] P (b :: Q) a 0 rfl hP (by decide)
    simp only [List.nil_append, Nat.cast_zero] at h
    exact h
  · have h := read_image_at cs (a :: P) Q [] b 1 (by simp only [List.length_cons, hP])
      hQ (by decide)
    simp only [List.append_nil, Nat.cast_one] at h
    exact h

theorem batch_3_3_first : read_image true batch_3_3 0 = some (3, List.replicate 3072 0) :=
  (read_image_two true 3 3 _ _ (List.length_replicate _ _) (List.length_replicate _ _)).1

theorem batch_3_3_second : read_image true batch_3_3 1 = some (3, List.replicate 3072 1) :=
  (read_image_two true 3 3 _ _ (List.length_replicate _ _) (List.length_replicate _ _)).2

theorem batch_3_3_body :
    convert_body true false batch_3_3 0 (cifar_init ["0", "1", "3", "3"] []) =
      .ok { read_pair false (cifar_init ["0", "1", "3", "3"] []) with
            txn := (read_pair false (cifar_init ["0", "1", "3", "3"] [])).txn ++
              [(['0', '0', '0', '0', '0'],
                cifar_datum (List.replicate 3072 0) (List.replicate 3072 1) 3 3)] } :=
  convert_body_success true false batch_3_3 0 _ 0 1 3 3 _ _ _ (by decide) (by decide)
    batch_3_3_first batch_3_3_second (by decide) (by decide) (by decide)

/-- The statement of `pair_label_is_match_indicator` on the pairing line
`0 1 3 3` over two samples of label 3, and on two 1 x 1 images. -/
theorem pair_label_is_match_indicator_witness :
    (∃ i j l1 b1 l2 b2 key d,
        atoi (read_pair false (cifar_init ["0", "1", "3", "3"] [])).c1.toList = some i ∧
        atoi (read_pair false (cifar_init ["0", "1", "3", "3"] [])).c2.toList = some j ∧
        read_image true batch_3_3 i = some (l1, b1) ∧
        read_image true batch_3_3 j = some (l2, b2) ∧
        ({ read_pair false (cifar_init ["0", "1", "3", "3"] []) with
            txn := (read_pair false (cifar_init ["0", "1", "3", "3"] [])).txn ++
              [(['0', '0', '0', '0', '0'],
                cifar_datum (List.replicate 3072 0) (List.replicate 3072 1) 3 3)] }
          : CifarState).txn = (cifar_init ["0", "1", "3", "3"] []).txn ++ [(key, d)] ∧
        (l1 = l2 → d.label = 1) ∧ (l1 ≠ l2 → d.label = 0)) ∧
    (((4 : Int) = 4 →
        ({ channels := 2, height := 1, width := 1, data := [7, 9], label := 1,
           encoded := false } : Datum).label = 1) ∧
      ((4 : Int) ≠ 4 →
        ({ channels := 2, height := 1, width := 1, data := [7, 9], label := 1,
           encoded := false } : Datum).label = 0)) :=
  ⟨pair_label_is_match_indicator.1 true false batch_3_3 0 _ _ batch_3_3_body,
   pair_label_is_match_indicator.2 (pixel 7) (pixel 9) 4 4 true _ rfl⟩

theorem cifar_datum_data (F : List Nat) (cs : Bool) (i j : Nat) (l1 l2 : Int) (b1 b2 : List Nat)
    (h1 : read_image cs F (i : Int) = some (l1, b1))
    (h2 : read_image cs F (j : Int) = some (l2, b2)) :
    (cifar_datum b1 b2 l1 l2).data.length = 6144 ∧
    ∀ k, k < 3072 →
      (cifar_datum b1 b2 l1 l2).data.getD k 0 = F.getD (3073 * i + 1 + k) 0 ∧
      (cifar_datum b1 b2 l1 l2).data.getD (3072 + k) 0 = F.getD (3073 * j + 1 + k) 0 := by
  obtain ⟨i2, hi, hoi, hli⟩ := read_image_some cs F _ _ _ h1
  obtain ⟨j2, hj, hoj, hlj⟩ := read_image_some cs F _ _ _ h2
  have ei : i2 = i := by exact_mod_cast hi.symm
  have ej : j2 = j := by exact_mod_cast hj.symm
  subst ei ej
  obtain ⟨l1x, b1x, e1, len1, g1, -⟩ := read_image_spec_aux cs F i2 hoi hli
  obtain ⟨l2x, b2x, e2, len2, g2, -⟩ := read_image_spec_aux cs F j2 hoj hlj
  rw [h1] at e1; rw [h2] at e2
  simp only [Option.some.injEq, Prod.mk.injEq] at e1 e2
  obtain ⟨-, rfl⟩ := e1
  obtain ⟨-, rfl⟩ := e2
  refine ⟨by simp [cifar_datum, len1, len2], ?_⟩
  intro k hk
  simp only [cifar_datum]
  constructor
  · rw [List.getD_append _ _ _ _ (by omega)]; exact g1 k hk
  · rw [List.getD_append_right _ _ _ _ (by omega), len1]
    have : 3072 + k - 3072 = k := by omega
    rw [this]; exact g2 k hk

/-- C8 (amended): the CIFAR builder copies the two samples byte for byte: the
record has 6 channels of 32 x 32 and 6144 data bytes, the first 3072 being the
pixel bytes of sample `i` in file order and the last 3072 those of sample `j`
in file order. -/
theorem cifar_record_data_verbatim (cs test : Bool) (F : List Nat) (itemid : Nat)
    (st st2 : CifarState) (h : convert_body cs test F itemid st = .ok st2) :
    ∃ (i j : Nat) (key : List Char) (d : Datum),
      atoi (read_pair test st).c1.toList = some (i : Int) ∧
      atoi (read_pair test st).c2.toList = some (j : Int) ∧
      st2.txn = st.txn ++ [(key, d)] ∧
      d.channels = 6 ∧ d.height = 32 ∧ d.width = 32 ∧ d.data.length = 6144 ∧
      ∀ k, k < 3072 →
        d.data.getD k 0 = F.getD (3073 * i + 1 + k) 0 ∧
        d.data.getD (3072 + k) 0 = F.getD (3073 * j + 1 + k) 0 := by
  obtain ⟨i, j, l1, b1, l2, b2, key, hi, hj, h1, h2, -, -, -, rfl⟩ :=
    convert_body_ok cs test F itemid st st2 h
  obtain ⟨i2, rfl, -, -⟩ := read_image_some cs F _ _ _ h1
  obtain ⟨j2, rfl, -, -⟩ := read_image_some cs F _ _ _ h2
  obtain ⟨hlen, hdata⟩ := cifar_datum_data F cs i2 j2 l1 l2 b1 b2 h1 h2
  refine ⟨i2, j2, key, cifar_datum b1 b2 l1 l2, hi, hj, ?_, rfl, rfl, rfl, hlen, hdata⟩
  simp [(read_pair_txn test st).1]

/-- The statement of `cifar_record_data_verbatim` on the pairing line `0 1 3 3`
over two samples of label 3. -/
theorem cifar_record_data_verbatim_witness :
    ∃ (i j : Nat) (key : List Char) (d : Datum),
      atoi (read_pair false (cifar_init ["0", "1", "3", "3"] [])).c1.toList = some (i : Int) ∧
      atoi (read_pair false (cifar_init ["0", "1", "3", "3"] [])).c2.toList = some (j : Int) ∧
      ({ read_pair false (cifar_init ["0", "1", "3", "3"] []) with
            txn := (read_pair false (cifar_init ["0", "1", "3", "3"] [])).txn ++
              [(['0', '0', '0', '0', '0'],
                cifar_datum (List.replicate 3072 0) (List.replicate 3072 1) 3 3)] }
          : CifarState).txn = (cifar_init ["0", "1", "3", "3"] []).txn ++ [(key, d)] ∧
      d.channels = 6 ∧ d.height = 32 ∧ d.width = 32 ∧ d.data.length = 6144 ∧
      ∀ k, k < 3072 →
        d.data.getD k 0 = batch_3_3.getD (3073 * i + 1 + k) 0 ∧
        d.data.getD (3072 + k) 0 = batch_3_3.getD (3073 * j + 1 + k) 0 :=
  cifar_record_data_verbatim true false batch_3_3 0 _ _ batch_3_3_body

theorem striped_length : striped_sample.length = 3072 := by
  simp only [striped_sample, List.length_append, List.length_replicate, List.length_cons,
    List.length_nil]

/-- C8 (counterexample): for the pair (0, 0) on a sample whose bytes at offsets
1 and 3 are 1 and 2, the record byte at channel-major position (c, h, w) =
(0, 0, 1) is the sample byte at offset 1, not the byte at the interleaved
offset (0 * 32 + 1) * 3 + 0 = 3. -/
theorem cifar_data_not_reordered :
    convert_body true false batch_striped 0 (cifar_init ["0", "0", "5", "5"] []) =
      .ok { read_pair false (cifar_init ["0", "0", "5", "5"] []) with
            txn := [(['0', '0', '0', '0', '0'],
                     cifar_datum striped_sample striped_sample 5 5)] } ∧
    (cifar_datum striped_sample striped_sample 5 5).data.getD ((0 * 32 + 0) * 32 + 1) 0 = 1 ∧
    striped_sample.getD ((0 * 32 + 1) * 3 + 0) 0 = 2 := by
  have hr : read_image true batch_striped 0 = some (5, striped_sample) :=
    read_image_single true 5 striped_sample striped_length
  refine ⟨?_, rfl, rfl⟩
  exact convert_body_success true false batch_striped 0 _ 0 0 5 5 _ _ _ (by decide) (by decide)
    hr hr (by decide) (by decide) (by decide)

theorem convert_body_mismatch (cs test : Bool) (F : List Nat) (itemid : Nat) (st : CifarState)
    (i j l1 l2 e1 e2 : Int) (b1 b2 : List Nat)
    (hi : atoi (read_pair test st).c1.toList = some i)
    (hj : atoi (read_pair test st).c2.toList = some j)
    (he1 : atoi (read_pair test st).s1.toList = some e1)
    (he2 : atoi (read_pair test st).s2.toList = some e2)
    (h1 : read_image cs F i = some (l1, b1))
    (h2 : read_image cs F j = some (l2, b2))
    (hne : e1 ≠ l1 ∨ e2 ≠ l2) :
    convert_body cs test F itemid st =
      .error (.check "The image index is mismatch." (read_pair test st)) := by
  unfold convert_body
  simp only [hi, hj, h1, h2, he1, he2, ne_eq]
  by_cases c1 : l1 = e1
  · have c2 : ¬ (l2 = e2) := by
      rcases hne with h | h
      · exact absurd c1.symm h
      · exact fun c => h c.symm
    simp [c1, c2]
  · simp [c1]

theorem convert_body_grows (cs test : Bool) (F : List Nat) (k : Nat) (t t2 : CifarState)
    (h : convert_body cs test F k t = .ok t2) :
    t2.txn.length = t.txn.length + 1 ∧ t2.train_db = t.train_db ∧ t2.test_db = t.test_db := by
  obtain ⟨i, j, l1, b1, l2, b2, key, -, -, -, -, -, -, -, rfl⟩ :=
    convert_body_ok cs test F k t t2 h
  obtain ⟨e1, e2, e3⟩ := read_pair_txn test t
  simp [e1, e2, e3]

theorem convert_loop_grows (cs test : Bool) (F : List Nat) (n : Nat) (s s2 : CifarState)
    (h : forLoop (convert_body cs test F) 0 n s = .ok s2) :
    s2.txn.length = s.txn.length + n ∧ s2.train_db = s.train_db ∧ s2.test_db = s.test_db := by
  have := forLoop_keeps (convert_body cs test F)
    (fun k t => t.txn.length = s.txn.length + k ∧ t.train_db = s.train_db ∧
      t.test_db = s.test_db)
    (fun k t t2 hb hp => by
      obtain ⟨g1, g2, g3⟩ := convert_body_grows cs test F k t t2 hb
      exact ⟨by omega, g2.trans hp.2.1, g3.trans hp.2.2⟩)
    n 0 s s2 h ⟨rfl, rfl, rfl⟩
  simpa using this

theorem read_image_label (cs : Bool) (F : List Nat) (x l : Int) (b : List Nat)
    (h : read_image cs F x = some (l, b)) :
    ∃ n : Nat, x = (n : Int) ∧ 3073 * (n + 1) ≤ F.length ∧
      l = char_to_int cs (F.getD (3073 * n) 0) ∧
      (F.getD (3073 * n) 0 < 128 → l = (F.getD (3073 * n) 0 : Int)) := by
  obtain ⟨n, rfl, hoff, hlen⟩ := read_image_some cs F x l b h
  rw [read_image_eq cs F n hoff hlen] at h
  simp only [Option.some.injEq, Prod.mk.injEq] at h
  refine ⟨n, rfl, hlen, h.1.symm, ?_⟩
  rw [← h.1]
  generalize F.getD (3073 * n) 0 = v
  intro hv
  have : ¬ (128 ≤ v) := by omega
  simp [char_to_int, this]

/-- C2 (amended): in both loops of `convert_dataset`, when the run reaches pair
`k` and one of the two labels on its pairing line differs from the label
`read_image` returns for the corresponding index, the run aborts on a failed
`CHECK` in a state whose open transaction holds exactly the `k` records of the
earlier pairs: nothing is put for pair `k` or for any later pair. The label
`read_image` returns is the label byte of the sample converted through plain
`char`, which is the byte itself when the byte is below 128. -/
theorem label_mismatch_aborts (cs : Bool) (train_data test_data : List Nat)
    (train_pairs test_pairs : List String) :
    (∀ (k : Nat) (st : CifarState) (i j l1 l2 e1 e2 : Int) (b1 b2 : List Nat),
      k < 50000 →
      forLoop (convert_body cs false train_data) 0 k (cifar_init train_pairs test_pairs)
        = .ok st →
      atoi (read_pair false st).c1.toList = some i →
      atoi (read_pair false st).c2.toList = some j →
      atoi (read_pair false st).s1.toList = some e1 →
      atoi (read_pair false st).s2.toList = some e2 →
      read_image cs train_data i = some (l1, b1) →
      read_image cs train_data j = some (l2, b2) →
      (e1 ≠ l1 ∨ e2 ≠ l2) →
      ∃ msg stA,
        convert_dataset cs train_data test_data train_pairs test_pairs
          = .error (.check msg stA) ∧
        stA.txn = st.txn ∧ st.txn.length = k ∧ stA.train_db = [] ∧ stA.test_db = []) ∧
    (∀ (k : Nat) (st1 st : CifarState) (i j l1 l2 e1 e2 : Int) (b1 b2 : List Nat),
      k < 10000 →
      forLoop (convert_body cs false train_data) 0 50000 (cifar_init train_pairs test_pairs)
        = .ok st1 →
      forLoop (convert_body cs true test_data) 0 k
        { st1 with train_db := st1.train_db ++ [st1.txn], txn := [] } = .ok st →
      atoi (read_pair true st).c1.toList = some i →
      atoi (read_pair true st).c2.toList = some j →
      atoi (read_pair true st).s1.toList = some e1 →
      atoi (read_pair true st).s2.toList = some e2 →
      read_image cs test_data i = some (l1, b1) →
      read_image cs test_data j = some (l2, b2) →
      (e1 ≠ l1 ∨ e2 ≠ l2) →
      ∃ msg stA,
        convert_dataset cs train_data test_data train_pairs test_pairs
          = .error (.check msg stA) ∧
        stA.txn = st.txn ∧ st.txn.length = k ∧ stA.train_db = [st1.txn] ∧
        stA.test_db = []) ∧
    (∀ (F : List Nat) (x l : Int) (b : List Nat),
      read_image cs F x = some (l, b) →
      ∃ n : Nat, x = (n : Int) ∧ 3073 * (n + 1) ≤ F.length ∧
        l = char_to_int cs (F.getD (3073 * n) 0) ∧
        (F.getD (3073 * n) 0 < 128 → l = (F.getD (3073 * n) 0 : Int))) := by
  refine ⟨?_, ?_, ?_⟩
  · intro k st i j l1 l2 e1 e2 b1 b2 hk hpre hi hj he1 he2 h1 h2 hne
    have hfail := convert_body_mismatch cs false train_data (0 + k) st i j l1 l2 e1 e2 b1 b2
      hi hj he1 he2 h1 h2 hne
    have hrun := forLoop_fails_at _ 0 k (kCIFARBatchSize * 5) _ st _
      (by simpa [kCIFARBatchSize] using hk) hpre hfail
    obtain ⟨g1, g2, g3⟩ := convert_loop_grows cs false train_data k _ st hpre
    obtain ⟨r1, r2, r3⟩ := read_pair_txn false st
    refine ⟨"The image index is mismatch.", read_pair false st, ?_, r1, ?_, ?_, ?_⟩
    · unfold convert_dataset
      simp only [hrun]
    · simpa [cifar_init] using g1
    · rw [r2, g2]; rfl
    · rw [r3, g3]; rfl
  · intro k st1 st i j l1 l2 e1 e2 b1 b2 hk htrain hpre hi hj he1 he2 h1 h2 hne
    have hfail := convert_body_mismatch cs true test_data (0 + k) st i j l1 l2 e1 e2 b1 b2
      hi hj he1 he2 h1 h2 hne
    have hrun := forLoop_fails_at _ 0 k kCIFARBatchSize _ st _
      (by simpa [kCIFARBatchSize] using hk) hpre hfail
    obtain ⟨g1, g2, g3⟩ := convert_loop_grows cs true test_data k _ st hpre
    obtain ⟨t1, t2, t3⟩ := convert_loop_grows cs false train_data 50000 _ st1 htrain
    obtain ⟨r1, r2, r3⟩ := read_pair_txn true st
    have htrain2 : forLoop (convert_body cs false train_data) 0 (kCIFARBatchSize * 5)
        (cifar_init train_pairs test_pairs) = .ok st1 := htrain
    refine ⟨"The image index is mismatch.", read_pair true st, ?_, r1, ?_, ?_, ?_⟩
    · unfold convert_dataset
      simp only [htrain2, hrun]
    · simpa using g1
    · rw [r2, g2]; simp [t2, cifar_init]
    · rw [r3, g3]; simp [t3, cifar_init]
  · intro F x l b h
    exact read_image_label cs F x l b h

/-! ## Keys -/

theorem toDigitsCore_acc (fuel : Nat) :
    ∀ (n : Nat) (ds : List Char),
      Nat.toDigitsCore 10 fuel n ds = Nat.toDigitsCore 10 fuel n [] ++ ds := by
  induction fuel with
  | zero => intro n ds; simp [Nat.toDigitsCore]
  | succ fuel ih =>
    intro n ds
    simp only [Nat.toDigitsCore]
    by_cases h : n / 10 = 0
    · simp [h]
    · simp only [h, if_false]
      rw [ih (n / 10) (_ :: ds), ih (n / 10) [_]]
      simp

theorem fixed_digits_length (w : Nat) : ∀ n, (fixed_digits w n).length = w := by
  induction w with
  | zero => intro n; rfl
  | succ w ih => intro n; simp [fixed_digits, ih]

theorem fixed_digits_zero (w : Nat) : fixed_digits w 0 = List.replicate w '0' := by
  induction w with
  | zero => rfl
  | succ w ih =>
    simp only [fixed_digits, Nat.zero_div, Nat.zero_mod, ih]
    rw [List.replicate_succ']
    rfl

/-- Zero-padding the digits printed for `n` to width `w` gives the `w` fixed
digits of `n`, when `n` has at most `w` digits. -/
theorem pad_toDigitsCore (w : Nat) :
    ∀ (n fuel : Nat), n < 10 ^ (w + 1) → n < fuel →
      (Nat.toDigitsCore 10 fuel n []).length ≤ w + 1 ∧
      List.replicate (w + 1 - (Nat.toDigitsCore 10 fuel n []).length) '0' ++
        Nat.toDigitsCore 10 fuel n [] = fixed_digits (w + 1) n := by
  induction w with
  | zero =>
    intro n fuel hn hf
    obtain ⟨f, rfl⟩ : ∃ f, fuel = f + 1 := ⟨fuel - 1, by omega⟩
    have h0 : n / 10 = 0 := by omega
    have h1 : n % 10 = n := by omega
    simp [Nat.toDigitsCore, h0, h1, fixed_digits]
  | succ w ih =>
    intro n fuel hn hf
    obtain ⟨f, rfl⟩ : ∃ f, fuel = f + 1 := ⟨fuel - 1, by omega⟩
    simp only [Nat.toDigitsCore]
    by_cases h0 : n / 10 = 0
    · simp only [h0, if_true, List.length_singleton]
      refine ⟨by omega, ?_⟩
      have e : w + 1 + 1 - 1 = w + 1 := by omega
      rw [e]
      show _ = fixed_digits (w + 1) (n / 10) ++ [Nat.digitChar (n % 10)]
      rw [h0, fixed_digits_zero]
    · simp only [h0, if_false]
      have hq : n / 10 < 10 ^ (w + 1) := by
        rw [Nat.div_lt_iff_lt_mul (by decide)]
        calc n < 10 ^ (w + 1 + 1) := hn
          _ = 10 ^ (w + 1) * 10 := by ring
      have hqf : n / 10 < f := by omega
      obtain ⟨hlen, hpad⟩ := ih (n / 10) f hq hqf
      rw [toDigitsCore_acc]
      refine ⟨by simp only [List.length_append, List.length_singleton]; omega, ?_⟩
      simp only [List.length_append, List.length_singleton]
      have e : w + 1 + 1 - ((Nat.toDigitsCore 10 f (n / 10) []).length + 1)
          = w + 1 - (Nat.toDigitsCore 10 f (n / 10) []).length := by omega
      rw [e, ← List.append_assoc, hpad]
      rfl

theorem format_0d_fixed (w n : Nat) (hn : n < 10 ^ (w + 1)) :
    format_0d (w + 1) (n : Int) = fixed_digits (w + 1) n := by
  unfold format_0d
  have hneg : ¬ ((n : Int) < 0) := by omega
  simp only [hneg, if_false, Int.natAbs_ofNat]
  exact (pad_toDigitsCore w n (n + 1) hn (by omega)).2

theorem lex_append_same_length {α : Type} (r : α → α → Prop) :
    ∀ (l1 l2 : List α), List.Lex r l1 l2 → l1.length = l2.length →
      ∀ a b : List α, List.Lex r (l1 ++ a) (l2 ++ b) := by
  intro l1 l2 h
  induction h with
  | nil => intro hl; simp at hl
  | cons _ ih =>
    intro hl a b
    simp only [List.length_cons, Nat.add_right_cancel_iff] at hl
    exact List.Lex.cons (ih hl a b)
  | rel hr => intro _ a b; exact List.Lex.rel hr

theorem digitChar_lt : ∀ a : Fin 10, ∀ b : Fin 10, a < b →
    Nat.digitChar a < Nat.digitChar b := by decide

theorem fixed_digits_lex (w : Nat) :
    ∀ m n : Nat, m < n → n < 10 ^ w →
      List.Lex (· < ·) (fixed_digits w m) (fixed_digits w n) := by
  induction w with
  | zero => intro m n h1 h2; simp at h2; omega
  | succ w ih =>
    intro m n hmn hn
    simp only [fixed_digits]
    by_cases hq : m / 10 < n / 10
    · have hnq : n / 10 < 10 ^ w := by
        rw [Nat.div_lt_iff_lt_mul (by decide)]
        calc n < 10 ^ (w + 1) := hn
          _ = 10 ^ w * 10 := by ring
      exact lex_append_same_length _ _ _ (ih _ _ hq hnq)
        (by rw [fixed_digits_length, fixed_digits_length]) _ _
    · have he : m / 10 = n / 10 := by omega
      have hr : m % 10 < n % 10 := by omega
      rw [he]
      apply List.Lex.append_left
      apply List.Lex.rel
      have := digitChar_lt ⟨m % 10, Nat.mod_lt _ (by decide)⟩ ⟨n % 10, Nat.mod_lt _ (by decide)⟩
        (by simpa using hr)
      simpa using this

theorem lex_char_irrefl : ∀ l : List Char, ¬ List.Lex (· < ·) l l := by
  intro l
  induction l with
  | nil => intro h; cases h
  | cons a l ih =>
    intro h
    cases h with
    | cons h => exact ih h
    | rel h => exact lt_irrefl _ h

theorem snprintf_key_fixed (size w n : Nat) (hn : n < 10 ^ (w + 1)) (hs : w + 1 < size) :
    snprintf_key size (w + 1) (n : Int) = some (fixed_digits (w + 1) n) := by
  unfold snprintf_key
  simp only [format_0d_fixed w n hn, fixed_digits_length, hs, if_true]

theorem key_padded (size w n : Nat) (hn : n < 10 ^ (w + 1)) (hs : w + 1 < size) :
    ∃ z, snprintf_key size (w + 1) (n : Int) = some (List.replicate z '0' ++ Nat.toDigits 10 n) ∧
      (List.replicate z '0' ++ Nat.toDigits 10 n).length = w + 1 := by
  have h := (pad_toDigitsCore w n (n + 1) hn (by omega)).2
  refine ⟨w + 1 - (Nat.toDigitsCore 10 (n + 1) n []).length, ?_, ?_⟩
  · rw [snprintf_key_fixed size w n hn hs, ← h]; rfl
  · show (List.replicate _ '0' ++ Nat.toDigitsCore 10 (n + 1) n []).length = w + 1
    rw [h, fixed_digits_length]

theorem key_ordered (size w m n : Nat) (hmn : m < n) (hn : n < 10 ^ (w + 1))
    (hs : w + 1 < size) :
    ∃ km kn, snprintf_key size (w + 1) (m : Int) = some km ∧
      snprintf_key size (w + 1) (n : Int) = some kn ∧
      List.Lex (· < ·) km kn ∧ km ≠ kn := by
  have hlex := fixed_digits_lex (w + 1) m n hmn hn
  refine ⟨_, _, snprintf_key_fixed size w m (by omega) hs, snprintf_key_fixed size w n hn hs,
    hlex, ?_⟩
  intro e
  rw [e] at hlex
  exact lex_char_irrefl _ hlex

/-- C4: the key of counter `n` is `n` in decimal, zero-padded: exactly 5
characters in the CIFAR pipeline for `n ≤ 99999` and exactly 8 in the ImageNet
pipeline for `n ≤ 99999999`; within that capacity the keys of `m < n` are
distinct and ordered lexicographically as `m` and `n` are. -/
theorem key_width_and_order :
    (∀ n : Nat, n ≤ 99999 →
      ∃ z, snprintf_key 10 5 (n : Int) = some (List.replicate z '0' ++ Nat.toDigits 10 n) ∧
        (List.replicate z '0' ++ Nat.toDigits 10 n).length = 5) ∧
    (∀ n : Nat, n ≤ 99999999 →
      ∃ z, snprintf_key 256 8 (n : Int) = some (List.replicate z '0' ++ Nat.toDigits 10 n) ∧
        (List.replicate z '0' ++ Nat.toDigits 10 n).length = 8) ∧
    (∀ m n : Nat, m < n → n ≤ 99999 →
      ∃ km kn, snprintf_key 10 5 (m : Int) = some km ∧ snprintf_key 10 5 (n : Int) = some kn ∧
        List.Lex (· < ·) km kn ∧ km ≠ kn) ∧
    (∀ m n : Nat, m < n → n ≤ 99999999 →
      ∃ km kn, snprintf_key 256 8 (m : Int) = some km ∧
        snprintf_key 256 8 (n : Int) = some kn ∧
        List.Lex (· < ·) km kn ∧ km ≠ kn) :=
  ⟨fun n hn => key_padded 10 4 n (by norm_num; omega) (by decide),
   fun n hn => key_padded 256 7 n (by norm_num; omega) (by decide),
   fun m n hmn hn => key_ordered 10 4 m n hmn (by norm_num; omega) (by decide),
   fun m n hmn hn => key_ordered 256 7 m n hmn (by norm_num; omega) (by decide)⟩

/-- The statement of `key_width_and_order` at the counters 99999, 2500, 9 and 10,
999 and 1000. -/
theorem key_width_and_order_witness :
    (∃ z, snprintf_key 10 5 ((99999 : Nat) : Int)
        = some (List.replicate z '0' ++ Nat.toDigits 10 99999) ∧
      (List.replicate z '0' ++ Nat.toDigits 10 99999).length = 5) ∧
    (∃ z, snprintf_key 256 8 ((2500 : Nat) : Int)
        = some (List.replicate z '0' ++ Nat.toDigits 10 2500) ∧
      (List.replicate z '0' ++ Nat.toDigits 10 2500).length = 8) ∧
    (∃ km kn, snprintf_key 10 5 ((9 : Nat) : Int) = some km ∧
      snprintf_key 10 5 ((10 : Nat) : Int) = some kn ∧
      List.Lex (· < ·) km kn ∧ km ≠ kn) ∧
    (∃ km kn, snprintf_key 256 8 ((999 : Nat) : Int) = some km ∧
      snprintf_key 256 8 ((1000 : Nat) : Int) = some kn ∧
      List.Lex (· < ·) km kn ∧ km ≠ kn) :=
  ⟨key_width_and_order.1 99999 (by decide),
   key_width_and_order.2.1 2500 (by decide),
   key_width_and_order.2.2.1 9 10 (by decide) (by decide),
   key_width_and_order.2.2.2 999 1000 (by decide) (by decide)⟩

/-! ## The CIFAR loops on a pairing file given line by line -/

theorem read_pair_line (test : Bool) (st : CifarState) (l : PairLine) (rest : List String)
    (h : pair_stream test st = l.c1 :: l.c2 :: l.s1 :: l.s2 :: rest) :
    (read_pair test st).c1 = l.c1 ∧ (read_pair test st).c2 = l.c2 ∧
    (read_pair test st).s1 = l.s1 ∧ (read_pair test st).s2 = l.s2 ∧
    pair_stream test (read_pair test st) = rest ∧
    pair_stream (!test) (read_pair test st) = pair_stream (!test) st := by
  unfold pair_stream at h
  unfold read_pair pair_stream
  cases test <;> simp_all [extract]

theorem cifar_line_datum_some (cs : Bool) (F : List Nat) (l : PairLine) (d : Datum)
    (h : cifar_line_datum cs F l = some d) :
    ∃ i j l1 b1 l2 b2,
      atoi l.c1.toList = some i ∧ atoi l.c2.toList = some j ∧
      atoi l.s1.toList = some l1 ∧ atoi l.s2.toList = some l2 ∧
      read_image cs F i = some (l1, b1) ∧ read_image cs F j = some (l2, b2) ∧
      d = cifar_datum b1 b2 l1 l2 := by
  unfold cifar_line_datum at h
  split at h
  · rename_i i j e1 e2 hi hj he1 he2
    split at h
    · rename_i l1 b1 l2 b2 h1 h2
      split at h
      · rename_i hc
        obtain ⟨rfl, rfl⟩ := hc
        simp only [Option.some.injEq] at h
        exact ⟨i, j, l1, b1, l2, b2, hi, hj, he1, he2, h1, h2, h.symm⟩
      · simp at h
    · simp at h
  · simp at h

theorem cifar_line_datum_of (cs : Bool) (F : List Nat) (l : PairLine)
    (i j l1 l2 : Int) (b1 b2 : List Nat)
    (hi : atoi l.c1.toList = some i) (hj : atoi l.c2.toList = some j)
    (he1 : atoi l.s1.toList = some l1) (he2 : atoi l.s2.toList = some l2)
    (h1 : read_image cs F i = some (l1, b1)) (h2 : read_image cs F j = some (l2, b2)) :
    cifar_line_datum cs F l = some (cifar_datum b1 b2 l1 l2) := by
  unfold cifar_line_datum
  simp only [hi, hj, he1, he2, h1, h2, and_self, if_true]

/-- On a pairing stream that starts with `n` valid lines, `n` iterations of the
CIFAR loop succeed, consume those lines and put their records in order. -/
theorem convert_loop_lines (cs test : Bool) (F : List Nat) (n : Nat) :
    ∀ (i : Nat) (s : CifarState) (lines : List PairLine),
      pair_stream test s = pair_tokens lines → n ≤ lines.length → i + n ≤ 100000 →
      (∀ l ∈ lines.take n, ∃ d, cifar_line_datum cs F l = some d) →
      ∃ s2, forLoop (convert_body cs test F) i n s = .ok s2 ∧
        s2.txn = s.txn ++ cifar_expected cs F i (lines.take n) ∧
        pair_stream test s2 = pair_tokens (lines.drop n) ∧
        pair_stream (!test) s2 = pair_stream (!test) s ∧
        s2.train_db = s.train_db ∧ s2.test_db = s.test_db := by
  induction n with
  | zero =>
    intro i s lines hs _ _ _
    exact ⟨s, rfl, by simp [cifar_expected], by simpa using hs, rfl, rfl, rfl⟩
  | succ n ih =>
    intro i s lines hs hlen hi hvalid
    cases lines with
    | nil => simp at hlen
    | cons l ls =>
      obtain ⟨d, hd⟩ := hvalid l (by simp)
      obtain ⟨x, y, l1, b1, l2, b2, hx, hy, he1, he2, h1, h2, rfl⟩ :=
        cifar_line_datum_some cs F l d hd
      obtain ⟨rc1, rc2, rs1, rs2, rstream, rother⟩ :=
        read_pair_line test s l (pair_tokens ls) (by simpa [pair_tokens] using hs)
      obtain ⟨rt, rtr, rte⟩ := read_pair_txn test s
      have hkey : snprintf_key 10 5 (i : Int) = some (fixed_digits 5 i) :=
        snprintf_key_fixed 10 4 i (by norm_num; omega) (by decide)
      have hb := convert_body_success cs test F i s x y l1 l2 b1 b2 _
        (by rw [rc1]; exact hx) (by rw [rc2]; exact hy) h1 h2
        (by rw [rs1]; exact he1) (by rw [rs2]; exact he2) hkey
      obtain ⟨s2, hl, htxn, hstream, hother, htr, hte⟩ :=
        ih (i + 1) _ ls
          (show pair_stream test { read_pair test s with
              txn := (read_pair test s).txn ++ [(fixed_digits 5 i, cifar_datum b1 b2 l1 l2)] }
            = pair_tokens ls by
            rw [← rstream]; cases test <;> rfl)
          (by simpa using hlen) (by omega)
          (fun l2 hl2 => hvalid l2 (by simp [hl2]))
      refine ⟨s2, ?_, ?_, ?_, ?_, ?_, ?_⟩
      · simp only [forLoop, hb]; exact hl
      · rw [htxn]
        simp only [List.take_succ_cons, cifar_expected, hd, rt]
        simp
      · simpa using hstream
      · rw [hother, ← rother]; cases test <;> rfl
      · rw [htr]; exact rtr
      · rw [hte]; exact rte

theorem cifar_expected_length (cs : Bool) (F : List Nat) :
    ∀ (ls : List PairLine) (i : Nat), (∀ l ∈ ls, ∃ d, cifar_line_datum cs F l = some d) →
      (cifar_expected cs F i ls).length = ls.length ∧
      ∀ k (hk : k < ls.length), ∃ d, cifar_line_datum cs F ls[k] = some d ∧
        (cifar_expected cs F i ls)[k]? = some (fixed_digits 5 (i + k), d) := by
  intro ls
  induction ls with
  | nil => intro i _; exact ⟨rfl, fun k hk => absurd hk (by simp)⟩
  | cons l ls ih =>
    intro i hv
    obtain ⟨d, hd⟩ := hv l (by simp)
    obtain ⟨hlen, hget⟩ := ih (i + 1) (fun l2 hl2 => hv l2 (by simp [hl2]))
    refine ⟨by simp [cifar_expected, hd, hlen], ?_⟩
    intro k hk
    cases k with
    | zero => exact ⟨d, hd, by simp [cifar_expected, hd]⟩
    | succ k =>
      obtain ⟨d2, hd2, hg⟩ := hget k (by simpa using hk)
      refine ⟨d2, by simpa using hd2, ?_⟩
      simp only [cifar_expected, hd, List.getElem?_cons_succ, hg]
      have : i + 1 + k = i + (k + 1) := by omega
      rw [this]

/-! ## The copy loops of `ReadTwoImageToOneDatum` -/

theorem mul_add_unique (W x w y v : Nat) (hw : w < W) (hv : v < W)
    (h : x * W + w = y * W + v) : x = y ∧ w = v := by
  have h1 : (x * W + w) % W = w := by
    rw [Nat.add_comm, Nat.add_mul_mod_self_right]; exact Nat.mod_eq_of_lt hw
  have h2 : (y * W + v) % W = v := by
    rw [Nat.add_comm, Nat.add_mul_mod_self_right]; exact Nat.mod_eq_of_lt hv
  have hwv : w = v := by rw [← h1, ← h2, h]
  subst hwv
  have hx : x * W = y * W := by omega
  exact ⟨Nat.eq_of_mul_eq_mul_right (by omega) hx, rfl⟩

theorem mul_add_lt (N W x w : Nat) (hx : x < N) (hw : w < W) : x * W + w < N * W := by
  have h1 : (x + 1) * W ≤ N * W := Nat.mul_le_mul_right W hx
  have h2 : (x + 1) * W = x * W + W := by ring
  omega

theorem datum_index_lt (C H W c h w : Nat) (hc : c < C) (hh : h < H) (hw : w < W) :
    (c * H + h) * W + w < C * H * W :=
  mul_add_lt (C * H) W (c * H + h) w (mul_add_lt C H c h hc hh) hw

theorem datum_index_inj (H W c h w c2 h2 w2 : Nat) (hh : h < H) (hh2 : h2 < H)
    (hw : w < W) (hw2 : w2 < W)
    (e : (c * H + h) * W + w = (c2 * H + h2) * W + w2) : c = c2 ∧ h = h2 ∧ w = w2 := by
  obtain ⟨e1, e2⟩ := mul_add_unique W _ _ _ _ hw hw2 e
  obtain ⟨e3, e4⟩ := mul_add_unique H _ _ _ _ hh hh2 e1
  exact ⟨e3, e4, e2⟩

theorem Mat.ptr_decoded (m : Mat) (H W C h w c : Nat) (hm : m.decoded H W C)
    (hh : h < H) (hw : w < W) (hc : c < C) :
    m.ptr h (w * C + c) = some (m.pixel h w c) := by
  obtain ⟨-, -, hch, -, hlen, hrows⟩ := hm
  have hh2 : h < m.data.length := by omega
  have hrow : (m.data[h]).length = W * C := hrows _ (List.getElem_mem _)
  have hk : w * C + c < (m.data[h]).length := by
    rw [hrow]; exact mul_add_lt W C w c hw hc
  unfold Mat.ptr Mat.pixel
  rw [List.getElem?_eq_getElem hh2, hch]
  simp only [List.getD_eq_getElem?_getD, List.getElem?_eq_getElem hh2, Option.getD_some,
    List.getElem?_eq_getElem hk]

theorem getElem?_set_set (l : List Nat) (i j a b p : Nat) (hi : i < l.length)
    (hj : j < l.length) :
    ((l.set i a).set j b)[p]? =
      if p = j then some b else if p = i then some a else l[p]? := by
  rw [List.getElem?_set, List.getElem?_set]
  by_cases h1 : j = p
  · subst h1; simp [hj]
  · by_cases h2 : i = p
    · subst h2; simp [h1, hi, Ne.symm h1]
    · simp [h1, h2, Ne.symm h1, Ne.symm h2]

theorem channel_body_step (A B : Mat) (H W C h w c : Nat)
    (hA : A.decoded H W C) (hB : B.decoded H W C)
    (hh : h < H) (hw : w < W) (hc : c < C) (bs : BufState)
    (hidx : bs.img_index = w * C + c)
    (hinv : CopyInv A B H W C ((h * W + w) * C + c) bs) :
    ∃ bs2, channel_body A B H W (C * H * W) h w c bs = .ok bs2 ∧
      bs2.img_index = w * C + (c + 1) ∧
      CopyInv A B H W C ((h * W + w) * C + (c + 1)) bs2 := by
  obtain ⟨hlen, hcont, hslen, hnd, hmem⟩ := hinv
  have hi := datum_index_lt C H W c h w hc hh hw
  have hpA := A.ptr_decoded H W C h w c hA hh hw hc
  have hpB := B.ptr_decoded H W C h w c hB hh hw hc
  have hb : channel_body A B H W (C * H * W) h w c bs = .ok
      { buffer := (bs.buffer.set ((c * H + h) * W + w) (A.pixel h w c)).set
          ((c * H + h) * W + w + C * H * W) (B.pixel h w c),
        img_index := bs.img_index + 1,
        stores := bs.stores ++ [(c * H + h) * W + w] ++ [(c * H + h) * W + w + C * H * W] } := by
    unfold channel_body store
    have g1 : (c * H + h) * W + w < bs.buffer.length := by omega
    have g2 : (c * H + h) * W + w + C * H * W <
        (bs.buffer.set ((c * H + h) * W + w) (A.pixel h w c)).length := by
      rw [List.length_set]; omega
    simp only [hidx, hpA, hpB, g1, g2, if_true]
  refine ⟨_, hb, by simp only [hidx]; omega, ?_⟩
  unfold CopyInv
  generalize hi_def : (c * H + h) * W + w = i at *
  generalize hS_def : C * H * W = S at *
  refine ⟨by simp [hlen], ?_, by simp [hslen]; omega, ?_, ?_⟩
  · intro h2 w2 c2 hh2 hw2 hc2 hlt
    have hi2 := datum_index_lt C H W c2 h2 w2 hc2 hh2 hw2
    rw [hS_def] at hi2
    simp only
    rw [getElem?_set_set _ _ _ _ _ _ (by omega) (by omega),
      getElem?_set_set _ _ _ _ _ _ (by omega) (by omega)]
    by_cases hcase : (h2 * W + w2) * C + c2 = (h * W + w) * C + c
    · obtain ⟨e1, e2⟩ := mul_add_unique C _ _ _ _ hc2 hc hcase
      obtain ⟨e3, e4⟩ := mul_add_unique W _ _ _ _ hw2 hw e1
      subst e2 e3 e4
      rw [hi_def]
      have n1 : ¬ (i = i + S) := by omega
      simp [n1]
    · have hold := hcont h2 w2 c2 hh2 hw2 hc2 (by omega)
      have hne : (c2 * H + h2) * W + w2 ≠ i := by
        intro e
        rw [← hi_def] at e
        obtain ⟨a1, a2, a3⟩ := datum_index_inj H W _ _ _ _ _ _ hh2 hh hw2 hw e
        subst a1 a2 a3
        exact hcase rfl
      have n1 : ¬ ((c2 * H + h2) * W + w2 = i + S) := by omega
      have n2 : ¬ ((c2 * H + h2) * W + w2 + S = i) := by omega
      have n3 : ¬ ((c2 * H + h2) * W + w2 + S = i + S) := by omega
      simp only [n1, n2, n3, hne, if_false]
      exact hold
  · simp only
    rw [List.append_assoc, List.nodup_append]
    refine ⟨hnd, by simp; omega, ?_⟩
    intro p hp hp2
    obtain ⟨h2, w2, c2, hh2, hw2, hc2, hlt, hpe⟩ := hmem p hp
    have hi2 := datum_index_lt C H W c2 h2 w2 hc2 hh2 hw2
    rw [hS_def] at hi2
    have hne : (c2 * H + h2) * W + w2 ≠ i := by
      intro e
      rw [← hi_def] at e
      obtain ⟨a1, a2, a3⟩ := datum_index_inj H W _ _ _ _ _ _ hh2 hh hw2 hw e
      subst a1 a2 a3
      omega
    simp at hp2
    omega
  · intro p hp
    simp only [List.append_assoc, List.mem_append, List.mem_cons, List.mem_singleton,
      List.not_mem_nil, or_false] at hp
    rcases hp with hp | hp | hp
    · obtain ⟨h2, w2, c2, hh2, hw2, hc2, hlt, hpe⟩ := hmem p hp
      exact ⟨h2, w2, c2, hh2, hw2, hc2, by omega, hpe⟩
    · exact ⟨h, w, c, hh, hw, hc, by omega, Or.inl (by rw [hp, hi_def])⟩
    · exact ⟨h, w, c, hh, hw, hc, by omega, Or.inr (by rw [hp, hi_def])⟩

theorem col_body_step (A B : Mat) (H W C h w : Nat)
    (hA : A.decoded H W C) (hB : B.decoded H W C) (hh : h < H) (hw : w < W) (bs : BufState)
    (hidx : bs.img_index = w * C)
    (hinv : CopyInv A B H W C ((h * W + w) * C) bs) :
    ∃ bs2, col_body A B H W (C * H * W) h w bs = .ok bs2 ∧
      bs2.img_index = (w + 1) * C ∧
      CopyInv A B H W C ((h * W + (w + 1)) * C) bs2 := by
  have hch : A.channels = C := hA.2.2.1
  obtain ⟨bs2, hl, hi2, hinv2⟩ := forLoop_total
    (channel_body A B H W (C * H * W) h w)
    (fun k t => t.img_index = w * C + k ∧ CopyInv A B H W C ((h * W + w) * C + k) t)
    C 0 bs ⟨by simpa using hidx, by simpa using hinv⟩
    (fun k t _ hk ht => by
      obtain ⟨t2, e1, e2, e3⟩ := channel_body_step A B H W C h w k hA hB hh hw (by omega) t
        ht.1 ht.2
      exact ⟨t2, e1, e2, e3⟩)
  refine ⟨bs2, ?_, ?_, ?_⟩
  · unfold col_body; rw [hch]; exact hl
  · rw [hi2]; ring
  · have e : (h * W + (w + 1)) * C = (h * W + w) * C + (0 + C) := by ring
    rw [e]; exact hinv2

theorem row_body_step (A B : Mat) (H W C h : Nat)
    (hA : A.decoded H W C) (hB : B.decoded H W C) (hh : h < H) (bs : BufState)
    (hinv : CopyInv A B H W C (h * W * C) bs) :
    ∃ bs2, row_body A B H W (C * H * W) h bs = .ok bs2 ∧
      CopyInv A B H W C ((h + 1) * W * C) bs2 := by
  obtain ⟨bs2, hl, -, hinv2⟩ := forLoop_total
    (col_body A B H W (C * H * W) h)
    (fun k t => t.img_index = k * C ∧ CopyInv A B H W C ((h * W + k) * C) t)
    W 0 { bs with img_index := 0 }
    ⟨by simp, by simpa using hinv⟩
    (fun k t _ hk ht => by
      obtain ⟨t2, e1, e2, e3⟩ := col_body_step A B H W C h k hA hB hh (by omega) t ht.1 ht.2
      exact ⟨t2, e1, e2, e3⟩)
  refine ⟨bs2, hl, ?_⟩
  have e : (h + 1) * W * C = (h * W + (0 + W)) * C := by ring
  rw [e]; exact hinv2

theorem merge_images_ok (A B : Mat) (H W C : Nat)
    (hA : A.decoded H W C) (hB : B.decoded H W C) :
    ∃ bs, merge_images A B = .ok bs ∧ CopyInv A B H W C (H * W * C) bs := by
  have hA2 : A.decoded H W C := hA
  obtain ⟨r1, r2, r3, -⟩ := hA
  obtain ⟨bs, hl, hinv⟩ := forLoop_total
    (row_body A B H W (C * H * W))
    (fun k t => CopyInv A B H W C (k * W * C) t)
    H 0 { buffer := List.replicate ((C + C) * H * W) 32, img_index := 0, stores := [] }
    (by
      refine ⟨?_, ?_, ?_, ?_, ?_⟩
      · simp only [List.length_replicate]; ring
      · intro h w c _ _ _ hlt; simp at hlt
      · simp
      · simp
      · intro p hp; simp at hp)
    (fun k t _ hk ht => row_body_step A B H W C k hA2 hB (by omega) t ht)
  refine ⟨bs, ?_, by simpa using hinv⟩
  unfold merge_images
  simp only [r1, r2, r3, hB.2.2.1]
  exact hl

theorem mem_of_nodup_full (l : List Nat) (n : Nat) (hnd : l.Nodup) (hlen : l.length = n)
    (hlt : ∀ p ∈ l, p < n) : ∀ p, p < n → p ∈ l := by
  intro p hp
  have hsub : l.toFinset ⊆ Finset.range n := by
    intro q hq
    simp only [List.mem_toFinset] at hq
    simpa using hlt q hq
  have hcard : (Finset.range n).card ≤ l.toFinset.card := by
    rw [List.toFinset_card_of_nodup hnd, Finset.card_range, hlen]
  have := Finset.eq_of_subset_of_card_le hsub hcard
  have hm : p ∈ l.toFinset := by rw [this]; simpa using hp
  simpa using hm

theorem ReadTwo_decoded (A B : Mat) (H W C : Nat) (label1 label2 : Int)
    (hA : A.decoded H W C) (hB : B.decoded H W C)
    (hH : 2 * C * H ≤ INT_MAX) (hS : 2 * C * H * W ≤ INT_MAX) :
    ∃ bs, merge_images A B = .ok bs ∧ CopyInv A B H W C (H * W * C) bs ∧
      ReadTwoImageToOneDatum A B label1 label2 = .ok (true,
        { channels := C + C, height := H, width := W, data := bs.buffer,
          label := if label1 = label2 then 1 else 0, encoded := false }) := by
  obtain ⟨bs, hm, hinv⟩ := merge_images_ok A B H W C hA hB
  refine ⟨bs, hm, hinv, ?_⟩
  obtain ⟨r1, r2, r3, r4, -⟩ := hA
  obtain ⟨-, -, q3, q4, -⟩ := hB
  unfold ReadTwoImageToOneDatum
  have g1 : (C + C) * H ≤ INT_MAX := by
    have : (C + C) * H = 2 * C * H := by ring
    omega
  have g2 : (C + C) * H * W ≤ INT_MAX := by
    have : (C + C) * H * W = 2 * C * H * W := by ring
    omega
  simp only [r1, r2, r3, r4, q3, q4, ne_eq, not_true_eq_false, if_false, g1, g2, and_self,
    if_true, hm]

theorem layout_of_inv (A B : Mat) (H W C : Nat) (bs : BufState)
    (hinv : CopyInv A B H W C (H * W * C) bs) :
    bs.buffer.length = 2 * C * H * W ∧
    (∀ c h w, c < C → h < H → w < W →
      bs.buffer[(c * H + h) * W + w]? = some (A.pixel h w c) ∧
      bs.buffer[C * H * W + ((c * H + h) * W + w)]? = some (B.pixel h w c)) ∧
    bs.stores.Nodup ∧ bs.stores.length = 2 * C * H * W ∧
    (∀ p, p ∈ bs.stores ↔ p < 2 * C * H * W) := by
  obtain ⟨hlen, hcont, hslen, hnd, hmem⟩ := hinv
  have hsl : bs.stores.length = 2 * C * H * W := by rw [hslen]; ring
  have hlt : ∀ p ∈ bs.stores, p < 2 * C * H * W := by
    intro p hp
    obtain ⟨h, w, c, hh, hw, hc, -, hpe⟩ := hmem p hp
    have := datum_index_lt C H W c h w hc hh hw
    have e : 2 * C * H * W = 2 * (C * H * W) := by ring
    rw [e]
    rcases hpe with rfl | rfl <;> omega
  refine ⟨by rw [hlen]; ring, ?_, hnd, hsl, ?_⟩
  · intro c h w hc hh hw
    have hlin : (h * W + w) * C + c < H * W * C :=
      mul_add_lt (H * W) C (h * W + w) c (mul_add_lt H W h w hh hw) hc
    have := hcont h w c hh hw hc hlin
    rw [Nat.add_comm (C * H * W)]
    exact this
  · intro p
    exact ⟨hlt p, mem_of_nodup_full bs.stores _ hnd hsl hlt p⟩

/-- C3: for two decoded 8-bit images of the same height `H`, width `W` and
channel count `C` (the merged size fitting the `int` the code computes it in),
`ReadTwoImageToOneDatum` returns true with a record of `2 * C` channels,
height `H`, width `W` and exactly `2 * C * H * W` data bytes, in which position
`(c * H + h) * W + w` holds pixel `(h, w, c)` of the first image and position
`C * H * W + (c * H + h) * W + w` that of the second; the stores of the copy
loops hit every position below `2 * C * H * W` exactly once and no other. -/
theorem merged_record_layout (A B : Mat) (H W C : Nat) (label1 label2 : Int)
    (hA : A.decoded H W C) (hB : B.decoded H W C)
    (hH : 2 * C * H ≤ INT_MAX) (hS : 2 * C * H * W ≤ INT_MAX) :
    ∃ d bs, ReadTwoImageToOneDatum A B label1 label2 = .ok (true, d) ∧
      merge_images A B = .ok bs ∧ d.data = bs.buffer ∧
      d.channels = 2 * C ∧ d.height = H ∧ d.width = W ∧
      d.data.length = 2 * C * H * W ∧
      (∀ c h w, c < C → h < H → w < W →
        d.data[(c * H + h) * W + w]? = some (A.pixel h w c) ∧
        d.data[C * H * W + ((c * H + h) * W + w)]? = some (B.pixel h w c)) ∧
      bs.stores.Nodup ∧ bs.stores.length = 2 * C * H * W ∧
      (∀ p, p ∈ bs.stores ↔ p < 2 * C * H * W) := by
  obtain ⟨bs, hm, hinv, hr⟩ := ReadTwo_decoded A B H W C label1 label2 hA hB hH hS
  obtain ⟨g1, g2, g3, g4, g5⟩ := layout_of_inv A B H W C bs hinv
  exact ⟨_, bs, hr, hm, rfl, by ring, rfl, rfl, g1, g2, g3, g4, g5⟩

theorem image_a_decoded : image_a.decoded 2 2 3 := by
  simp [Mat.decoded, image_a]

theorem image_b_decoded : image_b.decoded 2 2 3 := by
  simp [Mat.decoded, image_b]

/-- The statement of `merged_record_layout` on two 2 x 2 images of 3 channels. -/
theorem merged_record_layout_witness :
    ∃ d bs, ReadTwoImageToOneDatum image_a image_b 4 5 = .ok (true, d) ∧
      merge_images image_a image_b = .ok bs ∧ d.data = bs.buffer ∧
      d.channels = 2 * 3 ∧ d.height = 2 ∧ d.width = 2 ∧
      d.data.length = 2 * 3 * 2 * 2 ∧
      (∀ c h w, c < 3 → h < 2 → w < 2 →
        d.data[(c * 2 + h) * 2 + w]? = some (image_a.pixel h w c) ∧
        d.data[3 * 2 * 2 + ((c * 2 + h) * 2 + w)]? = some (image_b.pixel h w c)) ∧
      bs.stores.Nodup ∧ bs.stores.length = 2 * 3 * 2 * 2 ∧
      (∀ p, p ∈ bs.stores ↔ p < 2 * 3 * 2 * 2) :=
  merged_record_layout image_a image_b 2 2 3 4 5 image_a_decoded image_b_decoded
    (by decide) (by decide)

/-- The merged record of the two sample images, computed by the model. -/
theorem merged_record_example :
    ReadTwoImageToOneDatum image_a image_b 4 5 = .ok (true,
      { channels := 6, height := 2, width := 2,
        data := [1, 4, 7, 10, 2, 5, 8, 11, 3, 6, 9, 12,
                 21, 24, 27, 30, 22, 25, 28, 31, 23, 26, 29, 32],
        label := 0, encoded := false }) := by
  rfl

/-! ## The loop of `main` -/

theorem read_pair_main_fields (st : MainState) :
    (read_pair_main st).count = st.count ∧
    (read_pair_main st).data_size = st.data_size ∧
    (read_pair_main st).data_size_initialized = st.data_size_initialized ∧
    (read_pair_main st).txn = st.txn ∧ (read_pair_main st).db = st.db := by
  unfold read_pair_main
  simp

theorem ReadTwo_status (A B : Mat) (label1 label2 : Int) (d : Datum) :
    ReadTwoImageToOneDatum A B label1 label2 ≠ .ok (false, d) := by
  intro h
  have := (ReadTwo_ok A B label1 label2 false d h).1
  simp at this

/-- The successful path of one iteration of `main`, up to the size check. -/
theorem main_body_built (flags : Flags) (reader : String → Mat) (root : String)
    (lines : List (String × Int)) (line_id : Nat) (st : MainState)
    (id1 id2 label1 label2 : Int) (name1 name2 : String) (d : Datum) (key : List Char)
    (h1 : atoi (read_pair_main st).c1.toList = some id1)
    (h2 : atoi (read_pair_main st).c2.toList = some id2)
    (hl1 : line_at lines id1 = some (name1, label1))
    (hl2 : line_at lines id2 = some (name2, label2))
    (henc : ¬ (flags.encoded ∧ flags.encode_type.length = 0 ∧ ¬ ('.' ∈ name1.toList)))
    (hr : ReadTwoImageToOneDatum (reader (root ++ name1)) (reader (root ++ name2))
      label1 label2 = .ok (true, d))
    (hkey : snprintf_key 256 8 (line_id : Int) = some key) :
    main_body flags reader root lines line_id st =
      match check_size_step flags (read_pair_main st) d with
      | .error e => .error e
      | .ok st2 => .ok (put_record st2 key d) := by
  unfold main_body
  simp only [h1, h2, hl1, hl2, henc, if_false, hr, hkey]
  simp

/-- Every completed iteration of `main` went through the successful path. -/
theorem main_body_ok (flags : Flags) (reader : String → Mat) (root : String)
    (lines : List (String × Int)) (line_id : Nat) (st st2 : MainState)
    (h : main_body flags reader root lines line_id st = .ok st2) :
    ∃ id1 id2 name1 label1 name2 label2 d key st1,
      atoi (read_pair_main st).c1.toList = some id1 ∧
      atoi (read_pair_main st).c2.toList = some id2 ∧
      line_at lines id1 = some (name1, label1) ∧
      line_at lines id2 = some (name2, label2) ∧
      ReadTwoImageToOneDatum (reader (root ++ name1)) (reader (root ++ name2))
        label1 label2 = .ok (true, d) ∧
      check_size_step flags (read_pair_main st) d = .ok st1 ∧
      snprintf_key 256 8 (line_id : Int) = some key ∧
      st2 = put_record st1 key d := by
  unfold main_body at h
  simp only at h
  split at h
  · rename_i id1 id2 h1 h2
    split at h
    · rename_i name1 label1 name2 label2 hl1 hl2
      split at h
      · simp at h
      · split at h
        · simp at h
        · simp at h
        · simp at h
        · rename_i status d hr
          have hs : status = true := by
            cases status
            · exact absurd hr (ReadTwo_status _ _ _ _ _)
            · rfl
          subst hs
          simp only [Bool.true_eq_false, if_false] at h
          split at h
          · simp at h
          · rename_i st1 hsz
            split at h
            · simp at h
            · rename_i key hkey
              simp only [Except.ok.injEq] at h
              exact ⟨id1, id2, name1, label1, name2, label2, d, key, st1, h1, h2, hl1, hl2,
                hr, hsz, hkey, h.symm⟩
    · simp at h
  · simp at h

/-- C7 (code at the failing input): `ReadTwoImageToOneDatum` never returns
false; for a pair whose two images both fail to decode it returns true with an
empty 2-channel record, which `main` puts into the store and commits; for an
undecodable image paired with a 3-channel image the channel `CHECK` aborts. -/
theorem undecodable_pair_not_skipped :
    (∀ (A B : Mat) (label1 label2 : Int) (d : Datum),
      ReadTwoImageToOneDatum A B label1 label2 ≠ .ok (false, d)) ∧
    ReadTwoImageToOneDatum empty_mat empty_mat 3 3 = .ok (true,
      { channels := 2, height := 0, width := 0, data := [], label := 1, encoded := false }) ∧
    (main { check_size := false, encoded := false, encode_type := "" }
        (fun _ => empty_mat) "" [("a.jpg", 3)] ["0", "0", "3", "3"]).toOption.map
        (fun st => (st.count, st.db)) =
      some (1, [[(['0', '0', '0', '0', '0', '0', '0', '0'],
        { channels := 2, height := 0, width := 0, data := [], label := 1,
          encoded := false })]]) ∧
    ReadTwoImageToOneDatum empty_mat image_a 3 3 =
      .error (.check "The two image channels is mismatch" ()) :=
  ⟨ReadTwo_status, rfl, rfl, rfl⟩

theorem put_record_inv (st : MainState) (key : List Char) (d : Datum) (h : TxnInv st) :
    TxnInv (put_record st key d) := by
  obtain ⟨h1, h2, h3⟩ := h
  unfold put_record
  by_cases hc : (st.count + 1) % 1000 = 0
  · simp only [hc, if_true]
    refine ⟨by simp, ?_, ?_⟩
    · simp only [List.length_append, List.length_singleton, List.length_nil]; omega
    · intro t ht
      simp only [List.mem_append, List.mem_singleton] at ht
      rcases ht with ht | ht
      · exact h3 t ht
      · subst ht
        simp only [List.length_append, List.length_singleton]
        omega
  · simp only [hc, if_false]
    refine ⟨?_, ?_, h3⟩
    · simp only [List.length_append, List.length_singleton]; omega
    · simp only [List.length_append, List.length_singleton]; omega

theorem put_record_puts (st : MainState) (key : List Char) (d : Datum) :
    (put_record st key d).db.flatten ++ (put_record st key d).txn =
      st.db.flatten ++ st.txn ++ [(key, d)] ∧
    (put_record st key d).count = st.count + 1 ∧
    (put_record st key d).pair_file = st.pair_file ∧
    (put_record st key d).data_size = st.data_size ∧
    (put_record st key d).data_size_initialized = st.data_size_initialized := by
  unfold put_record
  by_cases hc : (st.count + 1) % 1000 = 0
  · simp [hc]
  · simp [hc]

theorem check_size_step_ok (flags : Flags) (st st1 : MainState) (d : Datum)
    (h : check_size_step flags st d = .ok st1) :
    st1.txn = st.txn ∧ st1.db = st.db ∧ st1.count = st.count ∧
    st1.pair_file = st.pair_file := by
  unfold check_size_step at h
  split at h
  · split at h
    · simp only [Except.ok.injEq] at h; subst h; simp
    · split at h
      · simp only [Except.ok.injEq] at h; subst h; simp
      · simp at h
  · simp only [Except.ok.injEq] at h; subst h; simp

theorem main_body_inv (flags : Flags) (reader : String → Mat) (root : String)
    (lines : List (String × Int)) (line_id : Nat) (st st2 : MainState)
    (h : main_body flags reader root lines line_id st = .ok st2) (hinv : TxnInv st) :
    TxnInv st2 := by
  obtain ⟨id1, id2, name1, label1, name2, label2, d, key, st1, -, -, -, -, -, hsz, -, rfl⟩ :=
    main_body_ok flags reader root lines line_id st st2 h
  obtain ⟨e1, e2, e3, -⟩ := check_size_step_ok flags _ st1 d hsz
  obtain ⟨r1, -, -, r4, r5⟩ := read_pair_main_fields st
  apply put_record_inv
  unfold TxnInv at hinv ⊢
  rw [e1, e2, e3, r1, r4, r5]
  exact hinv

theorem write_last_batch_spec (st : MainState) (h : TxnInv st) :
    (write_last_batch st).txn = [] ∧
    (write_last_batch st).count = st.count ∧
    (write_last_batch st).db.flatten = st.db.flatten ++ st.txn ∧
    (write_last_batch st).db.flatten.length = st.count ∧
    (write_last_batch st).db.length = (st.count + 999) / 1000 ∧
    (∀ i t, (write_last_batch st).db[i]? = some t → i + 1 < (write_last_batch st).db.length →
      t.length = 1000) ∧
    (∀ t, (write_last_batch st).db.getLast? = some t →
      t.length = if st.count % 1000 = 0 then 1000 else st.count % 1000) := by
  obtain ⟨h1, h2, h3⟩ := h
  have hj : st.db.flatten.length = 1000 * st.db.length := by
    have : ∀ (l : List (List PutRec)), (∀ t ∈ l, t.length = 1000) →
        l.flatten.length = 1000 * l.length := by
      intro l
      induction l with
      | nil => intro _; rfl
      | cons a l ih =>
        intro hl
        simp only [List.flatten_cons, List.length_append, List.length_cons]
        rw [ih (fun t ht => hl t (by simp [ht])), hl a (by simp)]
        ring
    exact this _ h3
  unfold write_last_batch
  by_cases hc : st.count % 1000 = 0
  · have ht : st.txn.length = 0 := by omega
    have ht2 : st.txn = [] := List.length_eq_zero.mp ht
    simp only [hc, ne_eq, not_true_eq_false, if_false, if_true]
    refine ⟨ht2, trivial, by simp [ht2], by omega, by omega, ?_, ?_⟩
    · intro i t hi _
      exact h3 t (List.mem_iff_getElem?.mpr ⟨i, hi⟩)
    · intro t hl
      exact h3 t (List.mem_of_mem_getLast? hl)
  · simp only [hc, ne_eq, not_false_eq_true, if_true, if_false]
    refine ⟨trivial, trivial, by simp, ?_, ?_, ?_, ?_⟩
    · simp only [List.flatten_append, List.flatten_cons, List.flatten_nil, List.append_nil,
        List.length_append]
      omega
    · simp only [List.length_append, List.length_singleton]; omega
    · intro i t hi hlt
      simp only [List.length_append, List.length_singleton] at hlt
      rw [List.getElem?_append_left (by omega)] at hi
      exact h3 t (List.mem_iff_getElem?.mpr ⟨i, hi⟩)
    · intro t hl
      rw [List.getLast?_concat] at hl
      simp only [Option.some.injEq] at hl
      subst hl
      omega

theorem main_init_inv (pair_file : List String) : TxnInv (main_init pair_file) := by
  simp [TxnInv, main_init]

theorem main_loop_ok (flags : Flags) (reader : String → Mat) (root : String)
    (lines : List (String × Int)) (pair_file : List String) (st : MainState)
    (h : main flags reader root lines pair_file = .ok st) :
    ∃ st1, forLoop (main_body flags reader root lines) 0 lines.length (main_init pair_file)
        = .ok st1 ∧ st = write_last_batch st1 ∧ TxnInv st1 := by
  unfold main at h
  split at h
  · simp only at h
    split at h
    · simp at h
    · rename_i st1 hl
      simp only [Except.ok.injEq] at h
      refine ⟨st1, hl, h.symm, ?_⟩
      have := forLoop_keeps (main_body flags reader root lines) (fun _ t => TxnInv t)
        (fun k t t2 hb hp => main_body_inv flags reader root lines k t t2 hb hp)
        lines.length 0 _ st1 hl (main_init_inv pair_file)
      exact this
  · simp at h

/-- C5: a completed run of `main` that put `count` records has committed
exactly `ceil(count / 1000)` transactions, each of 1000 records except that
the last holds `count mod 1000` when that is not zero; the committed
transactions together hold `count` records and the open transaction is empty,
so no record put is left uncommitted. -/
theorem commits_in_batches (flags : Flags) (reader : String → Mat) (root : String)
    (lines : List (String × Int)) (pair_file : List String) (st : MainState)
    (h : main flags reader root lines pair_file = .ok st) :
    st.txn = [] ∧ st.db.flatten.length = st.count ∧
    st.db.length = (st.count + 999) / 1000 ∧
    (∀ i t, st.db[i]? = some t → i + 1 < st.db.length → t.length = 1000) ∧
    (∀ t, st.db.getLast? = some t →
      t.length = if st.count % 1000 = 0 then 1000 else st.count % 1000) := by
  obtain ⟨st1, -, rfl, hinv⟩ := main_loop_ok flags reader root lines pair_file st h
  obtain ⟨g1, g2, -, g4, g5, g6, g7⟩ := write_last_batch_spec st1 hinv
  rw [g2]
  exact ⟨g1, g4, g5, g6, g7⟩

theorem store_length (bs bs2 : BufState) (i v : Nat) (h : store bs i v = .ok bs2) :
    bs2.buffer.length = bs.buffer.length := by
  unfold store at h
  split at h
  · simp only [Except.ok.injEq] at h; subst h; simp
  · simp at h

theorem channel_body_length (A B : Mat) (H W S h w c : Nat) (bs bs2 : BufState)
    (hb : channel_body A B H W S h w c bs = .ok bs2) :
    bs2.buffer.length = bs.buffer.length := by
  unfold channel_body at hb
  simp only at hb
  split at hb
  · simp at hb
  · split at hb
    · simp at hb
    · rename_i bs1 h1
      split at hb
      · simp at hb
      · split at hb
        · simp at hb
        · rename_i bs3 h3
          simp only [Except.ok.injEq] at hb
          subst hb
          simp only
          rw [store_length _ _ _ _ h3, store_length _ _ _ _ h1]

theorem merge_images_length (A B : Mat) (bs : BufState) (h : merge_images A B = .ok bs) :
    bs.buffer.length = (A.channels + B.channels) * A.rows * A.cols := by
  unfold merge_images at h
  have key := forLoop_keeps
    (row_body A B A.rows A.cols (A.channels * A.rows * A.cols))
    (fun _ t => t.buffer.length = (A.channels + B.channels) * A.rows * A.cols)
    (fun k t t2 hb hp => by
      unfold row_body at hb
      have := forLoop_keeps
        (col_body A B A.rows A.cols (A.channels * A.rows * A.cols) k)
        (fun _ u => u.buffer.length = (A.channels + B.channels) * A.rows * A.cols)
        (fun k2 u u2 hb2 hp2 => by
          unfold col_body at hb2
          have := forLoop_keeps
            (channel_body A B A.rows A.cols (A.channels * A.rows * A.cols) k k2)
            (fun _ v => v.buffer.length = (A.channels + B.channels) * A.rows * A.cols)
            (fun k3 v v2 hb3 hp3 => by
              show v2.buffer.length = _
              rw [channel_body_length _ _ _ _ _ _ _ _ _ _ hb3]; exact hp3)
            _ 0 u u2 hb2 hp2
          exact this)
        _ 0 _ t2 hb hp
      exact this)
    _ 0 _ bs h (by simp)
  exact key

theorem ReadTwo_data_length (A B : Mat) (label1 label2 : Int) (status : Bool) (d : Datum)
    (h : ReadTwoImageToOneDatum A B label1 label2 = .ok (status, d)) :
    d.data.length = d.channels * d.height * d.width := by
  obtain ⟨-, -, -, -, bs, hm, rfl⟩ := ReadTwo_ok A B label1 label2 status d h
  exact merge_images_length A B bs hm

theorem format_0d_length (n : Nat) (hn : n ≤ INT_MAX) : (format_0d 8 (n : Int)).length ≤ 10 := by
  have h := (pad_toDigitsCore 9 n (n + 1) (by simp only [INT_MAX] at hn; norm_num; omega)
    (by omega)).1
  unfold format_0d
  have hneg : ¬ ((n : Int) < 0) := by omega
  simp only [hneg, if_false, Int.natAbs_ofNat, List.length_append, List.length_replicate]
  have e : (Nat.toDigits 10 n).length = (Nat.toDigitsCore 10 (n + 1) n []).length := rfl
  omega

theorem snprintf_key_main (n : Nat) (hn : n ≤ INT_MAX) :
    snprintf_key 256 8 (n : Int) = some (format_0d 8 (n : Int)) := by
  have h := format_0d_length n hn
  unfold snprintf_key
  have : (format_0d 8 (n : Int)).length < 256 := by omega
  simp only [this, if_true]

theorem read_pair_main_line (st : MainState) (l : PairLine) (rest : List String)
    (h : st.pair_file = l.c1 :: l.c2 :: l.s1 :: l.s2 :: rest) :
    (read_pair_main st).c1 = l.c1 ∧ (read_pair_main st).c2 = l.c2 ∧
    (read_pair_main st).s1 = l.s1 ∧ (read_pair_main st).s2 = l.s2 ∧
    (read_pair_main st).pair_file = rest := by
  unfold read_pair_main
  simp [h, extract]

theorem main_line_datum_some (flags : Flags) (reader : String → Mat) (root : String)
    (lines : List (String × Int)) (l : PairLine) (d : Datum)
    (h : main_line_datum flags reader root lines l = some d) :
    ∃ id1 id2 name1 label1 name2 label2,
      atoi l.c1.toList = some id1 ∧ atoi l.c2.toList = some id2 ∧
      line_at lines id1 = some (name1, label1) ∧ line_at lines id2 = some (name2, label2) ∧
      ¬ (flags.encoded ∧ flags.encode_type.length = 0 ∧ ¬ ('.' ∈ name1.toList)) ∧
      ReadTwoImageToOneDatum (reader (root ++ name1)) (reader (root ++ name2))
        label1 label2 = .ok (true, d) := by
  unfold main_line_datum at h
  split at h
  · rename_i id1 id2 h1 h2
    split at h
    · rename_i name1 label1 name2 label2 hl1 hl2
      split at h
      · simp at h
      · rename_i henc
        split at h
        · rename_i d2 hr
          simp only [Option.some.injEq] at h
          subst h
          exact ⟨id1, id2, name1, label1, name2, label2, h1, h2, hl1, hl2, henc, hr⟩
        · simp at h
    · simp at h
  · simp at h

theorem check_size_step_pass (flags : Flags) (st : MainState) (d : Datum) (sz : Nat)
    (hd : d.data.length = d.channels * d.height * d.width)
    (h : flags.check_size = true →
      (st.data_size_initialized = true → st.data_size = sz) ∧ d.data.length = sz) :
    ∃ st1, check_size_step flags st d = .ok st1 ∧ st1.txn = st.txn ∧ st1.db = st.db ∧
      st1.count = st.count ∧ st1.pair_file = st.pair_file ∧
      (flags.check_size = true → st1.data_size_initialized = true → st1.data_size = sz) := by
  unfold check_size_step
  by_cases hc : flags.check_size = true
  · obtain ⟨h1, h2⟩ := h hc
    by_cases hi : st.data_size_initialized = true
    · have : d.data.length = st.data_size := by rw [h2, h1 hi]
      simp only [hc, hi, if_true, not_true_eq_false, if_false, this]
      exact ⟨st, rfl, rfl, rfl, rfl, rfl, fun _ _ => h1 hi⟩
    · simp only [hc, hi, if_true, not_false_eq_true]
      exact ⟨_, rfl, rfl, rfl, rfl, rfl, fun _ _ => by simp only; rw [← hd, h2]⟩
  · refine ⟨st, ?_, rfl, rfl, rfl, rfl, fun c => absurd c hc⟩
    simp only [hc, if_false]
    rfl

/-- On a pairing stream that starts with `n` valid lines (of records of one
size when `check_size` is on), `n` iterations of the loop of `main` succeed,
consume those lines and put their records in order. -/
theorem main_loop_lines (flags : Flags) (reader : String → Mat) (root : String)
    (lines : List (String × Int)) (sz : Nat) (n : Nat) :
    ∀ (i : Nat) (s : MainState) (plines : List PairLine),
      s.pair_file = pair_tokens plines → n ≤ plines.length → i + n ≤ INT_MAX + 1 →
      (∀ l ∈ plines.take n, ∃ d, main_line_datum flags reader root lines l = some d) →
      (flags.check_size = true →
        (s.data_size_initialized = true → s.data_size = sz) ∧
        ∀ l ∈ plines.take n, ∀ d, main_line_datum flags reader root lines l = some d →
          d.data.length = sz) →
      ∃ s2, forLoop (main_body flags reader root lines) i n s = .ok s2 ∧
        s2.db.flatten ++ s2.txn =
          s.db.flatten ++ s.txn ++ main_expected flags reader root lines i (plines.take n) ∧
        s2.count = s.count + n ∧
        s2.pair_file = pair_tokens (plines.drop n) := by
  induction n with
  | zero =>
    intro i s plines hs _ _ _ _
    exact ⟨s, rfl, by simp [main_expected], rfl, by simpa using hs⟩
  | succ n ih =>
    intro i s plines hs hlen hi hvalid hsize
    cases plines with
    | nil => simp at hlen
    | cons l ls =>
      obtain ⟨d, hd⟩ := hvalid l (by simp)
      obtain ⟨id1, id2, name1, label1, name2, label2, h1, h2, hl1, hl2, henc, hr⟩ :=
        main_line_datum_some flags reader root lines l d hd
      obtain ⟨rc1, rc2, -, -, rfile⟩ :=
        read_pair_main_line s l (pair_tokens ls) (by simpa [pair_tokens] using hs)
      obtain ⟨f1, f2, f3, f4, f5⟩ := read_pair_main_fields s
      have hkey := snprintf_key_main i (by omega)
      have hb := main_body_built flags reader root lines i s id1 id2 label1 label2 name1 name2
        d _ (by rw [rc1]; exact h1) (by rw [rc2]; exact h2) hl1 hl2 henc hr hkey
      obtain ⟨st1, hsz, t1, t2, t3, t4, t5⟩ := check_size_step_pass flags (read_pair_main s) d sz
        (ReadTwo_data_length _ _ _ _ _ _ hr)
        (fun hc => ⟨by rw [f2, f3]; exact (hsize hc).1, (hsize hc).2 l (by simp) d hd⟩)
      rw [hsz] at hb
      simp only at hb
      obtain ⟨p1, p2, p3, p4, p5⟩ := put_record_puts st1 (format_0d 8 (i : Int)) d
      obtain ⟨s2, hl, hputs, hcount, hfile⟩ :=
        ih (i + 1) (put_record st1 (format_0d 8 (i : Int)) d) ls
          (by rw [p3, t4, rfile])
          (by simpa using hlen) (by omega)
          (fun l2 hl2 => hvalid l2 (by simp [hl2]))
          (fun hc => ⟨by rw [p4, p5]; exact t5 hc,
            fun l2 hl2 d2 hd2 => (hsize hc).2 l2 (by simp [hl2]) d2 hd2⟩)
      refine ⟨s2, ?_, ?_, ?_, ?_⟩
      · simp only [forLoop, hb]; exact hl
      · rw [hputs, p1, t1, t2, f4, f5]
        simp only [List.take_succ_cons, main_expected, hd]
        simp
      · rw [hcount, p2, t3, f1]; omega
      · simpa using hfile

theorem main_expected_spec (flags : Flags) (reader : String → Mat) (root : String)
    (lines : List (String × Int)) :
    ∀ (ls : List PairLine) (i : Nat),
      (∀ l ∈ ls, ∃ d, main_line_datum flags reader root lines l = some d) →
      (main_expected flags reader root lines i ls).length = ls.length ∧
      ∀ k (hk : k < ls.length), ∃ d, main_line_datum flags reader root lines ls[k] = some d ∧
        (main_expected flags reader root lines i ls)[k]? =
          some (format_0d 8 ((i + k : Nat) : Int), d) := by
  intro ls
  induction ls with
  | nil => intro i _; exact ⟨rfl, fun k hk => absurd hk (by simp)⟩
  | cons l ls ih =>
    intro i hv
    obtain ⟨d, hd⟩ := hv l (by simp)
    obtain ⟨hlen, hget⟩ := ih (i + 1) (fun l2 hl2 => hv l2 (by simp [hl2]))
    refine ⟨by simp [main_expected, hd, hlen], ?_⟩
    intro k hk
    cases k with
    | zero => exact ⟨d, hd, by simp [main_expected, hd]⟩
    | succ k =>
      obtain ⟨d2, hd2, hg⟩ := hget k (by simpa using hk)
      refine ⟨d2, by simpa using hd2, ?_⟩
      simp only [main_expected, hd, List.getElem?_cons_succ, hg]
      have : i + 1 + k = i + (k + 1) := by omega
      rw [this]

/-! ## Whole runs on pairing files given line by line -/

theorem convert_dataset_lines (cs : Bool) (train_data test_data : List Nat)
    (ltrain ltest : List PairLine)
    (hn1 : 50000 ≤ ltrain.length) (hn2 : 10000 ≤ ltest.length)
    (hv1 : ∀ l ∈ ltrain.take 50000, ∃ d, cifar_line_datum cs train_data l = some d)
    (hv2 : ∀ l ∈ ltest.take 10000, ∃ d, cifar_line_datum cs test_data l = some d) :
    ∃ st tr te,
      convert_dataset cs train_data test_data (pair_tokens ltrain) (pair_tokens ltest)
        = .ok st ∧
      st.train_db = [tr] ∧ st.test_db = [te] ∧ st.txn = [] ∧
      tr.length = 50000 ∧ te.length = 10000 ∧
      (∀ k, k < 50000 → ∃ l d, ltrain[k]? = some l ∧
        cifar_line_datum cs train_data l = some d ∧
        tr[k]? = some (format_0d 5 ((k : Nat) : Int), d)) ∧
      (∀ k, k < 10000 → ∃ l d, ltest[k]? = some l ∧
        cifar_line_datum cs test_data l = some d ∧
        te[k]? = some (format_0d 5 ((k : Nat) : Int), d)) := by
  obtain ⟨s1, hl1, htxn1, -, hother1, htr1, hte1⟩ :=
    convert_loop_lines cs false train_data 50000 0 (cifar_init (pair_tokens ltrain)
      (pair_tokens ltest)) ltrain rfl hn1 (by decide) hv1
  obtain ⟨s2, hl2, htxn2, -, -, htr2, hte2⟩ :=
    convert_loop_lines cs true test_data 10000 0
      { s1 with train_db := s1.train_db ++ [s1.txn], txn := [] } ltest
      (by
        have : pair_stream true s1 = pair_tokens ltest := hother1
        exact this)
      hn2 (by decide) hv2
  have hlen1 : (ltrain.take 50000).length = 50000 := by
    rw [List.length_take]; omega
  have hlen2 : (ltest.take 10000).length = 10000 := by
    rw [List.length_take]; omega
  obtain ⟨e1, g1⟩ := cifar_expected_length cs train_data (ltrain.take 50000) 0 hv1
  obtain ⟨e2, g2⟩ := cifar_expected_length cs test_data (ltest.take 10000) 0 hv2
  have hl1b : forLoop (convert_body cs false train_data) 0 (kCIFARBatchSize * 5)
      (cifar_init (pair_tokens ltrain) (pair_tokens ltest)) = .ok s1 := hl1
  have hl2b : forLoop (convert_body cs true test_data) 0 kCIFARBatchSize
      { s1 with train_db := s1.train_db ++ [s1.txn], txn := [] } = .ok s2 := hl2
  refine ⟨{ s2 with test_db := s2.test_db ++ [s2.txn], txn := [] },
    cifar_expected cs train_data 0 (ltrain.take 50000),
    cifar_expected cs test_data 0 (ltest.take 10000), ?_, ?_, ?_, rfl, ?_, ?_, ?_, ?_⟩
  · unfold convert_dataset
    simp only [hl1b, hl2b]
  · simp only [htr2, htr1, htxn1]
    simp [cifar_init]
  · simp only [hte2, hte1, htxn2]
    simp [cifar_init]
  · rw [e1, hlen1]
  · rw [e2, hlen2]
  · intro k hk
    obtain ⟨d, hd, hg⟩ := g1 k (by omega)
    have hk2 : k < ltrain.length := by omega
    refine ⟨ltrain[k], d, List.getElem?_eq_getElem hk2, ?_, ?_⟩
    · rw [List.getElem_take] at hd; exact hd
    · rw [hg, Nat.zero_add, format_0d_fixed 4 k (by norm_num; omega)]
  · intro k hk
    obtain ⟨d, hd, hg⟩ := g2 k (by omega)
    have hk2 : k < ltest.length := by omega
    refine ⟨ltest[k], d, List.getElem?_eq_getElem hk2, ?_, ?_⟩
    · rw [List.getElem_take] at hd; exact hd
    · rw [hg, Nat.zero_add, format_0d_fixed 4 k (by norm_num; omega)]

theorem main_loop_run (flags : Flags) (reader : String → Mat) (root : String)
    (lines : List (String × Int)) (plines : List PairLine) (sz : Nat)
    (hn : lines.length ≤ INT_MAX) (hlen : lines.length ≤ plines.length)
    (hv : ∀ l ∈ plines.take lines.length,
      ∃ d, main_line_datum flags reader root lines l = some d)
    (hsz : flags.check_size = true → ∀ l ∈ plines.take lines.length, ∀ d,
      main_line_datum flags reader root lines l = some d → d.data.length = sz) :
    ∃ st, main flags reader root lines (pair_tokens plines) = .ok st ∧
      st.count = lines.length ∧ st.txn = [] ∧ st.db.flatten.length = lines.length ∧
      ∀ k, k < lines.length → ∃ l d, plines[k]? = some l ∧
        main_line_datum flags reader root lines l = some d ∧
        st.db.flatten[k]? = some (format_0d 8 ((k : Nat) : Int), d) := by
  obtain ⟨s1, hl, hputs, hcount, -⟩ :=
    main_loop_lines flags reader root lines sz lines.length 0 (main_init (pair_tokens plines))
      plines rfl hlen (by omega) hv
      (fun hc => ⟨fun hi => by simp [main_init] at hi, hsz hc⟩)
  have hinv : TxnInv s1 := forLoop_keeps (main_body flags reader root lines)
    (fun _ t => TxnInv t)
    (fun k t t2 hb hp => main_body_inv flags reader root lines k t t2 hb hp)
    lines.length 0 _ s1 hl (main_init_inv _)
  obtain ⟨w1, w2, w3, w4, -⟩ := write_last_batch_spec s1 hinv
  have hc1 : s1.count = lines.length := by rw [hcount]; simp [main_init]
  obtain ⟨e1, g1⟩ := main_expected_spec flags reader root lines (plines.take lines.length) 0 hv
  refine ⟨write_last_batch s1, ?_, by rw [w2, hc1], w1, by rw [w4, hc1], ?_⟩
  · unfold main
    simp only [hn, if_true, hl]
  · intro k hk
    have hk2 : k < plines.length := by omega
    obtain ⟨d, hd, hg⟩ := g1 k (by rw [List.length_take]; omega)
    refine ⟨plines[k], d, List.getElem?_eq_getElem hk2, ?_, ?_⟩
    · rw [List.getElem_take] at hd; exact hd
    · rw [w3, hputs]
      simp only [main_init, List.flatten_nil, List.nil_append]
      rw [hg, Nat.zero_add]

theorem line_0_1_3_3_valid :
    cifar_line_datum true batch_3_3 line_0_1_3_3 =
      some (cifar_datum (List.replicate 3072 0) (List.replicate 3072 1) 3 3) :=
  cifar_line_datum_of true batch_3_3 line_0_1_3_3 0 1 3 3 _ _ (by decide) (by decide)
    (by decide) (by decide) batch_3_3_first batch_3_3_second

theorem replicate_take_valid (cs : Bool) (F : List Nat) (x : PairLine) (d : Datum)
    (h : cifar_line_datum cs F x = some d) (m n : Nat) :
    ∀ l ∈ (List.replicate m x).take n, ∃ d, cifar_line_datum cs F l = some d := by
  intro l hl
  have := List.eq_of_mem_replicate (List.mem_of_mem_take hl)
  subst this
  exact ⟨d, h⟩

/-- C9 (amended): the number of iterations is fixed by the program or by the
list file, not by the pairing file: `convert_dataset` runs 50000 train and
10000 test iterations and `main` one per list-file entry. When the pairing
file has at least that many lines and those pairs are valid, exactly that many
records are written, and the record with sequence number `k` is the one built
from the two indices on line `k`. -/
theorem records_follow_pairing_lines :
    (∀ (cs : Bool) (train_data test_data : List Nat) (ltrain ltest : List PairLine),
      50000 ≤ ltrain.length → 10000 ≤ ltest.length →
      (∀ l ∈ ltrain.take 50000, ∃ d, cifar_line_datum cs train_data l = some d) →
      (∀ l ∈ ltest.take 10000, ∃ d, cifar_line_datum cs test_data l = some d) →
      ∃ st tr te,
        convert_dataset cs train_data test_data (pair_tokens ltrain) (pair_tokens ltest)
          = .ok st ∧
        st.train_db = [tr] ∧ st.test_db = [te] ∧ st.txn = [] ∧
        tr.length = 50000 ∧ te.length = 10000 ∧
        (∀ k, k < 50000 → ∃ l d, ltrain[k]? = some l ∧
          cifar_line_datum cs train_data l = some d ∧
          tr[k]? = some (format_0d 5 ((k : Nat) : Int), d)) ∧
        (∀ k, k < 10000 → ∃ l d, ltest[k]? = some l ∧
          cifar_line_datum cs test_data l = some d ∧
          te[k]? = some (format_0d 5 ((k : Nat) : Int), d))) ∧
    (∀ (flags : Flags) (reader : String → Mat) (root : String)
      (lines : List (String × Int)) (plines : List PairLine) (sz : Nat),
      lines.length ≤ INT_MAX → lines.length ≤ plines.length →
      (∀ l ∈ plines.take lines.length,
        ∃ d, main_line_datum flags reader root lines l = some d) →
      (flags.check_size = true → ∀ l ∈ plines.take lines.length, ∀ d,
        main_line_datum flags reader root lines l = some d → d.data.length = sz) →
      ∃ st, main flags reader root lines (pair_tokens plines) = .ok st ∧
        st.count = lines.length ∧ st.txn = [] ∧ st.db.flatten.length = lines.length ∧
        ∀ k, k < lines.length → ∃ l d, plines[k]? = some l ∧
          main_line_datum flags reader root lines l = some d ∧
          st.db.flatten[k]? = some (format_0d 8 ((k : Nat) : Int), d)) :=
  ⟨fun cs train_data test_data ltrain ltest h1 h2 h3 h4 =>
      convert_dataset_lines cs train_data test_data ltrain ltest h1 h2 h3 h4,
   fun flags reader root lines plines sz h1 h2 h3 h4 =>
      main_loop_run flags reader root lines plines sz h1 h2 h3 h4⟩

theorem list_two_valid : ∀ l ∈ [line_0_1_1_1, line_0_0_1_1].take list_two.length,
    ∃ d, main_line_datum flags_default (fun _ => pixel 7) "" list_two l = some d := by
  intro l hl
  have : l = line_0_1_1_1 ∨ l = line_0_0_1_1 := by simpa [list_two] using hl
  rcases this with rfl | rfl
  · exact ⟨_, rfl⟩
  · exact ⟨_, rfl⟩

/-- The statement of `records_follow_pairing_lines` on pairing files of exactly
50000 and 10000 lines, and on a list file of two entries with a pairing file
of two lines. -/
theorem records_follow_pairing_lines_witness :
    (∃ st tr te,
        convert_dataset true batch_3_3 batch_3_3
          (pair_tokens (List.replicate 50000 line_0_1_3_3))
          (pair_tokens (List.replicate 10000 line_0_1_3_3)) = .ok st ∧
        st.train_db = [tr] ∧ st.test_db = [te] ∧ st.txn = [] ∧
        tr.length = 50000 ∧ te.length = 10000 ∧
        (∀ k, k < 50000 → ∃ l d, (List.replicate 50000 line_0_1_3_3)[k]? = some l ∧
          cifar_line_datum true batch_3_3 l = some d ∧
          tr[k]? = some (format_0d 5 ((k : Nat) : Int), d)) ∧
        (∀ k, k < 10000 → ∃ l d, (List.replicate 10000 line_0_1_3_3)[k]? = some l ∧
          cifar_line_datum true batch_3_3 l = some d ∧
          te[k]? = some (format_0d 5 ((k : Nat) : Int), d))) ∧
    (∃ st, main flags_default (fun _ => pixel 7) "" list_two
          (pair_tokens [line_0_1_1_1, line_0_0_1_1]) = .ok st ∧
        st.count = list_two.length ∧ st.txn = [] ∧
        st.db.flatten.length = list_two.length ∧
        ∀ k, k < list_two.length → ∃ l d, [line_0_1_1_1, line_0_0_1_1][k]? = some l ∧
          main_line_datum flags_default (fun _ => pixel 7) "" list_two l = some d ∧
          st.db.flatten[k]? = some (format_0d 8 ((k : Nat) : Int), d)) :=
  ⟨records_follow_pairing_lines.1 true batch_3_3 batch_3_3
      (List.replicate 50000 line_0_1_3_3) (List.replicate 10000 line_0_1_3_3)
      (by rw [List.length_replicate]) (by rw [List.length_replicate])
      (replicate_take_valid _ _ _ _ line_0_1_3_3_valid _ _)
      (replicate_take_valid _ _ _ _ line_0_1_3_3_valid _ _),
   records_follow_pairing_lines.2 flags_default (fun _ => pixel 7) "" list_two
      [line_0_1_1_1, line_0_0_1_1] 0 (by decide) (by decide) list_two_valid
      (fun h => by simp [flags_default] at h)⟩

/-- C9 (counterexample): in the ImageNet pipeline a list file of two entries
with a pairing file of one valid line gives two records, and a list file of
one entry with a pairing file of two valid lines gives one record; in the
CIFAR pipeline pairing files of 50001 and 10001 valid lines give 50000 and
10000 records. -/
theorem record_count_not_from_pairing_file :
    (main flags_default (fun _ => pixel 7) "" list_two
        (pair_tokens [line_0_1_1_1])).toOption.map
        (fun st => (st.count, st.db.flatten.length)) = some (2, 2) ∧
    (main flags_default (fun _ => pixel 7) "" [("a", 1)]
        (pair_tokens [line_0_0_1_1, line_0_0_1_1])).toOption.map
        (fun st => (st.count, st.db.flatten.length)) = some (1, 1) ∧
    (∃ st tr te,
        convert_dataset true batch_3_3 batch_3_3
          (pair_tokens (List.replicate 50001 line_0_1_3_3))
          (pair_tokens (List.replicate 10001 line_0_1_3_3)) = .ok st ∧
        st.train_db = [tr] ∧ st.test_db = [te] ∧
        tr.length = 50000 ∧ te.length = 10000) := by
  refine ⟨rfl, rfl, ?_⟩
  obtain ⟨st, tr, te, h1, h2, h3, -, h5, h6, -⟩ :=
    convert_dataset_lines true batch_3_3 batch_3_3
      (List.replicate 50001 line_0_1_3_3) (List.replicate 10001 line_0_1_3_3)
      (by rw [List.length_replicate]; decide) (by rw [List.length_replicate]; decide)
      (replicate_take_valid _ _ _ _ line_0_1_3_3_valid _ _)
      (replicate_take_valid _ _ _ _ line_0_1_3_3_valid _ _)
  exact ⟨st, tr, te, h1, h2, h3, h5, h6⟩

theorem batch_3_7_reads :
    read_image true batch_3_7 0 = some (3, List.replicate 3072 0) ∧
    read_image true batch_3_7 1 = some (7, List.replicate 3072 1) :=
  read_image_two true 3 7 _ _ (List.length_replicate _ _) (List.length_replicate _ _)

/-- The scenario of the specification: samples 0 and 1 have labels 3 and 7 and
the pairing line is `0 1 3 3`; the run aborts with nothing put, in the train
loop and (after a complete train loop) in the test loop; the label 7 that
`read_image` returns for sample 1 is its label byte. -/
theorem label_mismatch_aborts_witness :
    (∃ msg stA,
        convert_dataset true batch_3_7 batch_3_3 ["0", "1", "3", "3"] []
          = .error (.check msg stA) ∧
        stA.txn = (cifar_init ["0", "1", "3", "3"] []).txn ∧
        (cifar_init ["0", "1", "3", "3"] []).txn.length = 0 ∧
        stA.train_db = [] ∧ stA.test_db = []) ∧
    (∃ (st1 : CifarState) (msg : String) (stA : CifarState),
        convert_dataset true batch_3_3 batch_3_7
          (pair_tokens (List.replicate 50000 line_0_1_3_3)) ["0", "1", "3", "3"]
          = .error (.check msg stA) ∧
        stA.txn = [] ∧ stA.train_db = [st1.txn] ∧ stA.test_db = []) ∧
    (∃ n : Nat, (1 : Int) = (n : Int) ∧ 3073 * (n + 1) ≤ batch_3_7.length ∧
        (7 : Int) = char_to_int true (batch_3_7.getD (3073 * n) 0) ∧
        (batch_3_7.getD (3073 * n) 0 < 128 →
          (7 : Int) = (batch_3_7.getD (3073 * n) 0 : Int))) := by
  refine ⟨?_, ?_, ?_⟩
  · exact (label_mismatch_aborts true batch_3_7 batch_3_3 ["0", "1", "3", "3"] []).1
      0 (cifar_init ["0", "1", "3", "3"] []) 0 1 3 7 3 3 _ _ (by decide) rfl
      (by decide) (by decide) (by decide) (by decide)
      batch_3_7_reads.1 batch_3_7_reads.2 (Or.inr (by decide))
  · obtain ⟨st1, hl1, -, -, hother, -, -⟩ :=
      convert_loop_lines true false batch_3_3 50000 0
        (cifar_init (pair_tokens (List.replicate 50000 line_0_1_3_3)) ["0", "1", "3", "3"])
        (List.replicate 50000 line_0_1_3_3) rfl (by rw [List.length_replicate]) (by decide)
        (replicate_take_valid _ _ _ _ line_0_1_3_3_valid _ _)
    have hs : pair_stream true { st1 with train_db := st1.train_db ++ [st1.txn], txn := [] }
        = line_0_1_3_3.c1 :: line_0_1_3_3.c2 :: line_0_1_3_3.s1 :: line_0_1_3_3.s2 :: [] :=
      hother
    obtain ⟨r1, r2, r3, r4, -, -⟩ := read_pair_line true _ line_0_1_3_3 [] hs
    obtain ⟨msg, stA, h1, h2, -, h4, h5⟩ :=
      (label_mismatch_aborts true batch_3_3 batch_3_7
        (pair_tokens (List.replicate 50000 line_0_1_3_3)) ["0", "1", "3", "3"]).2.1
        0 st1 { st1 with train_db := st1.train_db ++ [st1.txn], txn := [] }
        0 1 3 7 3 3 _ _ (by decide) hl1 rfl
        (by rw [r1]; decide) (by rw [r2]; decide) (by rw [r3]; decide) (by rw [r4]; decide)
        batch_3_7_reads.1 batch_3_7_reads.2 (Or.inr (by decide))
    exact ⟨st1, msg, stA, h1, h2, h4, h5⟩
  · exact (label_mismatch_aborts true batch_3_7 batch_3_3 ["0", "1", "3", "3"] []).2.2
      batch_3_7 1 7 _ batch_3_7_reads.2

theorem batch_200_read : read_image true batch_200 0 = some (-56, List.replicate 3072 0) :=
  read_image_single true 200 (List.replicate 3072 0) (List.length_replicate _ _)

theorem line_0_0_neg56_valid :
    cifar_line_datum true batch_200 line_0_0_neg56 =
      some (cifar_datum (List.replicate 3072 0) (List.replicate 3072 0) (-56) (-56)) :=
  cifar_line_datum_of true batch_200 line_0_0_neg56 0 0 (-56) (-56) _ _ (by decide) (by decide)
    (by decide) (by decide) batch_200_read batch_200_read

/-- C2 (counterexample): with a signed plain `char`, sample 0 has the label
byte 200 and the pairing line `0 0 -56 -56` names the label -56, which differs
from it; the iteration puts the record instead of aborting, and a whole run on
pairing files made of that line completes with all 50000 and 10000 records
written. -/
theorem label_mismatch_not_detected :
    batch_200.getD (3073 * 0) 0 = 200 ∧
    atoi line_0_0_neg56.s1.toList = some (-56) ∧
    atoi line_0_0_neg56.s2.toList = some (-56) ∧
    convert_body true false batch_200 0 (cifar_init (pair_tokens [line_0_0_neg56]) []) =
      .ok { read_pair false (cifar_init (pair_tokens [line_0_0_neg56]) []) with
            txn := [(['0', '0', '0', '0', '0'],
                     cifar_datum (List.replicate 3072 0) (List.replicate 3072 0)
                       (-56) (-56))] } ∧
    (∃ st tr te,
        convert_dataset true batch_200 batch_200
          (pair_tokens (List.replicate 50000 line_0_0_neg56))
          (pair_tokens (List.replicate 10000 line_0_0_neg56)) = .ok st ∧
        st.train_db = [tr] ∧ st.test_db = [te] ∧
        tr.length = 50000 ∧ te.length = 10000) := by
  refine ⟨rfl, by decide, by decide, ?_, ?_⟩
  · exact convert_body_success true false batch_200 0 _ 0 0 (-56) (-56) _ _ _
      (by decide) (by decide) batch_200_read batch_200_read (by decide) (by decide)
      (by decide)
  · obtain ⟨st, tr, te, h1, h2, h3, -, h5, h6, -⟩ :=
      convert_dataset_lines true batch_200 batch_200
        (List.replicate 50000 line_0_0_neg56) (List.replicate 10000 line_0_0_neg56)
        (by rw [List.length_replicate]) (by rw [List.length_replicate])
        (replicate_take_valid _ _ _ _ line_0_0_neg56_valid _ _)
        (replicate_take_valid _ _ _ _ line_0_0_neg56_valid _ _)
    exact ⟨st, tr, te, h1, h2, h3, h5, h6⟩

theorem replicate_take_valid_main (flags : Flags) (reader : String → Mat) (root : String)
    (lines : List (String × Int)) (x : PairLine) (d : Datum)
    (h : main_line_datum flags reader root lines x = some d) (m n : Nat) :
    ∀ l ∈ (List.replicate m x).take n,
      ∃ d, main_line_datum flags reader root lines l = some d := by
  intro l hl
  have := List.eq_of_mem_replicate (List.mem_of_mem_take hl)
  subst this
  exact ⟨d, h⟩

theorem main_line_datum_of (flags : Flags) (reader : String → Mat) (root : String)
    (lines : List (String × Int)) (l : PairLine) (id1 id2 label1 label2 : Int)
    (name1 name2 : String) (d : Datum)
    (h1 : atoi l.c1.toList = some id1) (h2 : atoi l.c2.toList = some id2)
    (hl1 : line_at lines id1 = some (name1, label1))
    (hl2 : line_at lines id2 = some (name2, label2))
    (henc : ¬ (flags.encoded ∧ flags.encode_type.length = 0 ∧ ¬ ('.' ∈ name1.toList)))
    (hr : ReadTwoImageToOneDatum (reader (root ++ name1)) (reader (root ++ name2))
      label1 label2 = .ok (true, d)) :
    main_line_datum flags reader root lines l = some d := by
  unfold main_line_datum
  simp only [h1, h2, hl1, hl2, henc, if_false, hr]

theorem line_at_replicate (n : Nat) (x : String × Int) (hn : 0 < n) :
    line_at (List.replicate n x) 0 = some x := by
  unfold line_at
  simp only [le_refl, if_true, Int.toNat_zero, List.getElem?_replicate, hn]

theorem line_0_0_1_1_valid :
    main_line_datum flags_default (fun _ => pixel 7) "" (List.replicate 2500 ("a", 1))
      line_0_0_1_1 =
      some { channels := 2, height := 1, width := 1, data := [7, 7], label := 1,
             encoded := false } :=
  main_line_datum_of _ _ _ _ _ 0 0 1 1 "a" "a" _ (by decide) (by decide)
    (line_at_replicate 2500 _ (by decide)) (line_at_replicate 2500 _ (by decide))
    (by decide) rfl

/-- The scenario of the specification: 2500 pairs give exactly 3 commits, of
1000, 1000 and 500 records. -/
theorem commits_in_batches_witness :
    ∃ st, main flags_default (fun _ => pixel 7) "" (List.replicate 2500 ("a", 1))
        (pair_tokens (List.replicate 2500 line_0_0_1_1)) = .ok st ∧
      st.count = 2500 ∧ st.txn = [] ∧ st.db.flatten.length = 2500 ∧
      st.db.map List.length = [1000, 1000, 500] := by
  obtain ⟨st, h, hc, -⟩ := main_loop_run flags_default (fun _ => pixel 7) ""
    (List.replicate 2500 ("a", 1)) (List.replicate 2500 line_0_0_1_1) 0
    (by rw [List.length_replicate]; decide)
    (by rw [List.length_replicate, List.length_replicate])
    (replicate_take_valid_main _ _ _ _ line_0_0_1_1 _ line_0_0_1_1_valid _ _)
    (fun hf => by simp [flags_default] at hf)
  rw [List.length_replicate] at hc
  obtain ⟨g1, g2, g3, g4, g5⟩ := commits_in_batches flags_default (fun _ => pixel 7) ""
    (List.replicate 2500 ("a", 1)) (pair_tokens (List.replicate 2500 line_0_0_1_1)) st h
  rw [hc] at g2 g3 g5
  refine ⟨st, h, hc, g1, g2, ?_⟩
  have hlen : st.db.length = 3 := by rw [g3]
  match hdb : st.db, hlen with
  | [a, b, c], _ =>
    rw [hdb] at g4 g5
    have ha := g4 0 a rfl (by simp)
    have hb := g4 1 b rfl (by simp)
    have hcc := g5 c rfl
    simp only [List.map_cons, List.map_nil, ha, hb, hcc]
    rfl

/-! ## The size check -/

theorem forLoop_error {σ ε : Type} (body : Nat → σ → Except ε σ) (Q : ε → Prop)
    (hb : ∀ k t e, body k t = .error e → Q e) (n : Nat) :
    ∀ (i : Nat) (s : σ) (e : ε), forLoop body i n s = .error e → Q e := by
  induction n with
  | zero => intro i s e h; simp [forLoop] at h
  | succ n ih =>
    intro i s e h
    simp only [forLoop] at h
    cases hbody : body i s with
    | error e2 =>
      simp only [hbody, Except.error.injEq] at h
      subst h
      exact hb i s e2 hbody
    | ok t =>
      simp only [hbody] at h
      exact ih (i + 1) t e h

theorem channel_body_error (A B : Mat) (H W S h w c : Nat) (bs : BufState)
    (e : Failure Unit) (hb : channel_body A B H W S h w c bs = .error e) :
    e = .undefined := by
  unfold channel_body store at hb
  simp only at hb
  split at hb
  · simp only [Except.error.injEq] at hb; exact hb.symm
  · split at hb
    · rename_i e2 hs
      split at hs
      · simp at hs
      · simp only [Except.error.injEq] at hs hb; rw [← hb, ← hs]
    · split at hb
      · simp only [Except.error.injEq] at hb; exact hb.symm
      · split at hb
        · rename_i e2 hs
          split at hs
          · simp at hs
          · simp only [Except.error.injEq] at hs hb; rw [← hb, ← hs]
        · simp at hb

theorem merge_images_error (A B : Mat) (e : Failure Unit)
    (h : merge_images A B = .error e) : e = .undefined := by
  unfold merge_images at h
  exact forLoop_error _ (fun e => e = .undefined)
    (fun k t e hb => by
      unfold row_body at hb
      exact forLoop_error _ (fun e => e = .undefined)
        (fun k2 t2 e2 hb2 => by
          unfold col_body at hb2
          exact forLoop_error _ (fun e => e = .undefined)
            (fun k3 t3 e3 hb3 => channel_body_error _ _ _ _ _ _ _ _ _ _ hb3)
            _ _ _ _ hb2)
        _ _ _ _ hb)
    _ _ _ _ h

theorem size_inv_step (flags : Flags) (reader : String → Mat) (root : String)
    (lines : List (String × Int)) (hc : flags.check_size = true)
    (k : Nat) (st st2 : MainState)
    (h : main_body flags reader root lines k st = .ok st2) (hinv : SizeInv k st) :
    SizeInv (k + 1) st2 := by
  obtain ⟨id1, id2, name1, label1, name2, label2, d, key, st1, -, -, -, -, hr, hsz, -, rfl⟩ :=
    main_body_ok flags reader root lines k st st2 h
  obtain ⟨f1, f2, f3, f4, f5⟩ := read_pair_main_fields st
  obtain ⟨e1, e2, e3, -⟩ := check_size_step_ok flags _ st1 d hsz
  obtain ⟨p1, -, -, p4, p5⟩ := put_record_puts st1 key d
  obtain ⟨hlen, hinit, hfirst⟩ := hinv
  have hd := ReadTwo_data_length _ _ _ _ _ _ hr
  unfold SizeInv
  rw [p1, p4, p5, e1, e2, f4, f5]
  unfold check_size_step at hsz
  simp only [hc, if_true] at hsz
  by_cases hi : st.data_size_initialized = true
  · have hk : 0 < k := hinit.mp hi
    rw [f3] at hsz
    simp only [hi, not_true_eq_false, if_false] at hsz
    split at hsz
    · simp only [Except.ok.injEq] at hsz
      subst hsz
      obtain ⟨first, hf1, hf2⟩ := hfirst hk
      refine ⟨by simp only [List.length_append, List.length_singleton] at hlen ⊢; omega,
        ⟨fun _ => by omega, fun _ => by rw [f3]; exact hi⟩, fun _ => ⟨first, ?_, ?_⟩⟩
      · rw [List.head?_append, hf1]; rfl
      · rw [f2]; exact hf2
    · simp at hsz
  · have hk : k = 0 := by
      by_contra hne
      exact hi (hinit.mpr (by omega))
    subst hk
    have hi2 : st.data_size_initialized = false := by simpa using hi
    rw [f3, hi2] at hsz
    simp only [Bool.false_eq_true, not_false_eq_true, if_true, Except.ok.injEq] at hsz
    subst hsz
    have hnil : st.db.flatten ++ st.txn = [] := List.length_eq_zero.mp hlen
    refine ⟨by rw [hnil]; rfl, ⟨fun _ => by omega, fun _ => rfl⟩, fun _ => ⟨(key, d), ?_, ?_⟩⟩
    · rw [hnil]; rfl
    · simp only; exact hd.symm

theorem size_inv_reached (flags : Flags) (reader : String → Mat) (root : String)
    (lines : List (String × Int)) (pair_file : List String) (hc : flags.check_size = true)
    (k : Nat) (st : MainState)
    (h : forLoop (main_body flags reader root lines) 0 k (main_init pair_file) = .ok st) :
    SizeInv k st := by
  have := forLoop_keeps (main_body flags reader root lines) SizeInv
    (fun i t t2 hb hp => size_inv_step flags reader root lines hc i t t2 hb hp)
    k 0 _ st h
    ⟨rfl, ⟨fun hi => by simp [main_init] at hi, fun hk => absurd hk (lt_irrefl 0)⟩,
      fun hk => absurd hk (lt_irrefl 0)⟩
  simpa using this

theorem main_body_check_msg (flags : Flags) (reader : String → Mat) (root : String)
    (lines : List (String × Int)) (hc : flags.check_size = false)
    (line_id : Nat) (st stA : MainState) (msg : String)
    (h : main_body flags reader root lines line_id st = .error (.check msg stA)) :
    msg ≠ "Incorrect data field size" := by
  unfold main_body at h
  simp only at h
  split at h
  · split at h
    · split at h
      · simp at h
      · split at h
        · rename_i msg2 u hr
          simp only [Except.error.injEq, Failure.check.injEq] at h
          rw [← h.1]
          unfold ReadTwoImageToOneDatum at hr
          split at hr
          · simp only [Except.error.injEq, Failure.check.injEq] at hr
            rw [← hr.1]; decide
          · split at hr
            · simp only [Except.error.injEq, Failure.check.injEq] at hr
              rw [← hr.1]; decide
            · split at hr
              · simp only [Except.error.injEq, Failure.check.injEq] at hr
                rw [← hr.1]; decide
              · simp only at hr
                split at hr
                · split at hr
                  · rename_i e hm
                    simp only [Except.error.injEq] at hr
                    have := merge_images_error _ _ _ hm
                    rw [hr] at this
                    simp at this
                  · simp at hr
                · simp at hr
        · simp at h
        · simp at h
        · split at h
          · simp at h
          · unfold check_size_step at h
            simp only [hc, Bool.false_eq_true, if_false] at h
            split at h
            · simp at h
            · simp at h
    · simp at h
  · simp at h

theorem main_loop_check_msg (flags : Flags) (reader : String → Mat) (root : String)
    (lines : List (String × Int)) (pair_file : List String) (hc : flags.check_size = false)
    (stA : MainState) (msg : String)
    (h : main flags reader root lines pair_file = .error (.check msg stA)) :
    msg ≠ "Incorrect data field size" := by
  unfold main at h
  split at h
  · simp only at h
    split at h
    · rename_i e hl
      simp only [Except.error.injEq] at h
      subst h
      exact forLoop_error (main_body flags reader root lines)
        (fun e => ∀ m s, e = Failure.check m s → m ≠ "Incorrect data field size")
        (fun k t e hb m s he => by
          subst he
          exact main_body_check_msg flags reader root lines hc k t s m hb)
        _ _ _ _ hl msg stA rfl
    · simp at h
  · simp at h

theorem main_loop_fails (flags : Flags) (reader : String → Mat) (root : String)
    (lines : List (String × Int)) (pair_file : List String) (k : Nat) (st : MainState)
    (e : Failure MainState) (hn : lines.length ≤ INT_MAX) (hk : k < lines.length)
    (hpre : forLoop (main_body flags reader root lines) 0 k (main_init pair_file) = .ok st)
    (hfail : main_body flags reader root lines k st = .error e) :
    main flags reader root lines pair_file = .error e := by
  have := forLoop_fails_at (main_body flags reader root lines) 0 k lines.length _ st e hk hpre
    (by simpa using hfail)
  unfold main
  simp only [hn, if_true, this]

/-- C6: with `check_size` on, the first record built sets the expected size to
its data length and is put; for a later record the run aborts on the size
`CHECK`, in a state where that record has not been put, when its data length
differs from that of the first record put, and puts it when the lengths agree.
With `check_size` off no abort of the run is the size `CHECK`. -/
theorem size_check_aborts :
    (∀ (flags : Flags) (reader : String → Mat) (root : String)
      (lines : List (String × Int)) (pair_file : List String) (k : Nat) (st : MainState)
      (id1 id2 label1 label2 : Int) (name1 name2 : String) (d : Datum),
      flags.check_size = true → lines.length ≤ INT_MAX → k < lines.length →
      forLoop (main_body flags reader root lines) 0 k (main_init pair_file) = .ok st →
      atoi (read_pair_main st).c1.toList = some id1 →
      atoi (read_pair_main st).c2.toList = some id2 →
      line_at lines id1 = some (name1, label1) →
      line_at lines id2 = some (name2, label2) →
      ¬ (flags.encoded ∧ flags.encode_type.length = 0 ∧ ¬ ('.' ∈ name1.toList)) →
      ReadTwoImageToOneDatum (reader (root ++ name1)) (reader (root ++ name2))
        label1 label2 = .ok (true, d) →
      (k = 0 → ∃ st2, main_body flags reader root lines k st = .ok st2 ∧
        st2.data_size_initialized = true ∧ st2.data_size = d.data.length ∧
        st2.db.flatten ++ st2.txn = [(format_0d 8 ((k : Nat) : Int), d)]) ∧
      (0 < k → ∃ first, (st.db.flatten ++ st.txn).head? = some first ∧
        (d.data.length ≠ first.2.data.length →
          main flags reader root lines pair_file =
            .error (.check "Incorrect data field size" (read_pair_main st)) ∧
          (read_pair_main st).db.flatten ++ (read_pair_main st).txn =
            st.db.flatten ++ st.txn) ∧
        (d.data.length = first.2.data.length →
          ∃ st2, main_body flags reader root lines k st = .ok st2 ∧
            st2.db.flatten ++ st2.txn =
              st.db.flatten ++ st.txn ++ [(format_0d 8 ((k : Nat) : Int), d)] ∧
            st2.data_size = first.2.data.length))) ∧
    (∀ (flags : Flags) (reader : String → Mat) (root : String)
      (lines : List (String × Int)) (pair_file : List String) (stA : MainState)
      (msg : String),
      flags.check_size = false →
      main flags reader root lines pair_file = .error (.check msg stA) →
      msg ≠ "Incorrect data field size") := by
  constructor
  · intro flags reader root lines pair_file k st id1 id2 label1 label2 name1 name2 d
      hc hn hk hpre h1 h2 hl1 hl2 henc hr
    obtain ⟨hlen, hinit, hfirst⟩ := size_inv_reached flags reader root lines pair_file hc k st hpre
    obtain ⟨f1, f2, f3, f4, f5⟩ := read_pair_main_fields st
    have hkey := snprintf_key_main k (by omega)
    have hb := main_body_built flags reader root lines k st id1 id2 label1 label2 name1 name2
      d _ h1 h2 hl1 hl2 henc hr hkey
    have hd := ReadTwo_data_length _ _ _ _ _ _ hr
    constructor
    · intro hk0
      subst hk0
      have hi : (read_pair_main st).data_size_initialized = false := by
        rw [f3]
        cases hv : st.data_size_initialized
        · rfl
        · exact absurd (hinit.mp hv) (lt_irrefl 0)
      have hnil : st.db.flatten ++ st.txn = [] := List.length_eq_zero.mp hlen
      have hsz : check_size_step flags (read_pair_main st) d = .ok
          { read_pair_main st with data_size := d.channels * d.height * d.width,
                                   data_size_initialized := true } := by
        unfold check_size_step
        simp only [hc, hi, if_true, Bool.false_eq_true, not_false_eq_true]
      rw [hsz] at hb
      obtain ⟨p1, -, -, p4, p5⟩ := put_record_puts
        { read_pair_main st with data_size := d.channels * d.height * d.width,
                                 data_size_initialized := true } (format_0d 8 ((0 : Nat) : Int)) d
      refine ⟨_, hb, by rw [p5], by rw [p4]; exact hd.symm, ?_⟩
      rw [p1]
      simp only [f4, f5, hnil, List.nil_append]
    · intro hk0
      obtain ⟨first, hf1, hf2⟩ := hfirst hk0
      have hi : (read_pair_main st).data_size_initialized = true := by
        rw [f3]; exact hinit.mpr hk0
      refine ⟨first, hf1, ?_, ?_⟩
      · intro hne
        have hsz : check_size_step flags (read_pair_main st) d =
            .error (.check "Incorrect data field size" (read_pair_main st)) := by
          unfold check_size_step
          have : ¬ (d.data.length = (read_pair_main st).data_size) := by
            rw [f2, hf2]; exact hne
          simp only [hc, hi, if_true, not_true_eq_false, if_false, this]
        rw [hsz] at hb
        exact ⟨main_loop_fails flags reader root lines pair_file k st _ hn hk hpre hb,
          by rw [f4, f5]⟩
      · intro heq
        have hsz : check_size_step flags (read_pair_main st) d = .ok (read_pair_main st) := by
          unfold check_size_step
          have : d.data.length = (read_pair_main st).data_size := by
            rw [f2, hf2]; exact heq
          simp only [hc, hi, if_true, not_true_eq_false, if_false, this]
        rw [hsz] at hb
        obtain ⟨p1, -, -, p4, -⟩ := put_record_puts (read_pair_main st)
          (format_0d 8 ((k : Nat) : Int)) d
        refine ⟨_, hb, by rw [p1, f4, f5], by rw [p4, f2]; exact hf2⟩
  · intro flags reader root lines pair_file stA msg hc h
    exact main_loop_check_msg flags reader root lines pair_file hc stA msg h

theorem black_image_decoded (H W C : Nat) : (black_image H W C).decoded H W C := by
  refine ⟨rfl, rfl, rfl, rfl, List.length_replicate _ _, ?_⟩
  intro row hrow
  have hdata : (black_image H W C).data = List.replicate H (List.replicate (W * C) 0) := rfl
  rw [hdata] at hrow
  rw [List.eq_of_mem_replicate hrow, List.length_replicate]

theorem main_expected_single (flags : Flags) (reader : String → Mat) (root : String)
    (lines : List (String × Int)) (k : Nat) (l : PairLine) (d : Datum)
    (h : main_line_datum flags reader root lines l = some d) :
    main_expected flags reader root lines k [l] = [(format_0d 8 (k : Int), d)] := by
  simp only [main_expected, h]

/-- The scenario of the specification: with `check_size` on, a first record of
6144 bytes and a second of 4096 bytes abort the run at the second record, the
store holding the first only. Without `check_size`, the abort of a run on a
channel mismatch is not the size `CHECK`. -/
theorem size_check_aborts_witness :
    (∃ stA first,
        main flags_check_size reader_a_b "" list_two
          (pair_tokens [line_0_0_1_1, line_1_1_1_1])
          = .error (.check "Incorrect data field size" stA) ∧
        stA.db.flatten ++ stA.txn = [first] ∧ first.2.data.length = 6144) ∧
    ("The two image channels is mismatch" ≠ "Incorrect data field size") := by
  constructor
  · obtain ⟨bs0, -, hinv0, hr0⟩ := ReadTwo_decoded (black_image 32 32 3)
      (black_image 32 32 3) 32 32 3 1 1
      (black_image_decoded 32 32 3) (black_image_decoded 32 32 3) (by decide) (by decide)
    obtain ⟨bs1, -, hinv1, hr1⟩ := ReadTwo_decoded (black_image 32 32 2)
      (black_image 32 32 2) 32 32 2 1 1
      (black_image_decoded 32 32 2) (black_image_decoded 32 32 2) (by decide) (by decide)
    have hlen0 := (layout_of_inv _ _ _ _ _ _ hinv0).1
    have hlen1 := (layout_of_inv _ _ _ _ _ _ hinv1).1
    have ea : reader_a_b ("" ++ "a") = black_image 32 32 3 := rfl
    have eb : reader_a_b ("" ++ "b") = black_image 32 32 2 := rfl
    have hd0 := main_line_datum_of flags_check_size reader_a_b "" list_two line_0_0_1_1
      0 0 1 1 "a" "a" _ (by decide) (by decide) rfl rfl (by decide) (by rw [ea]; exact hr0)
    obtain ⟨s2, hl, hputs, -, hfile⟩ := main_loop_lines flags_check_size reader_a_b "" list_two
      6144 1 0 (main_init (pair_tokens [line_0_0_1_1, line_1_1_1_1]))
      [line_0_0_1_1, line_1_1_1_1] rfl (by decide) (by decide)
      (fun l hl => by
        have : l = line_0_0_1_1 := by simpa using hl
        subst this
        exact ⟨_, hd0⟩)
      (fun _ => ⟨fun hi => by simp [main_init] at hi, fun l hl d hd => by
        have : l = line_0_0_1_1 := by simpa using hl
        subst this
        rw [hd0] at hd
        simp only [Option.some.injEq] at hd
        subst hd
        exact hlen0⟩)
    have hputs2 : s2.db.flatten ++ s2.txn =
        [(format_0d 8 ((0 : Nat) : Int),
          ({ channels := 3 + 3, height := 32, width := 32, data := bs0.buffer,
             label := if (1 : Int) = 1 then 1 else 0, encoded := false } : Datum))] := by
      have et : List.take 1 [line_0_0_1_1, line_1_1_1_1] = [line_0_0_1_1] := rfl
      rw [hputs, et, main_expected_single _ _ _ _ _ _ _ hd0]
      rfl
    obtain ⟨r1, r2, -, -, -⟩ := read_pair_main_line s2 line_1_1_1_1 [] hfile
    obtain ⟨first, hf, habort, -⟩ :=
      (size_check_aborts.1 flags_check_size reader_a_b "" list_two
        (pair_tokens [line_0_0_1_1, line_1_1_1_1]) 1 s2 1 1 1 1 "b" "b" _ rfl (by decide)
        (by decide) hl (by rw [r1]; decide) (by rw [r2]; decide) rfl rfl (by decide)
        (by rw [eb]; exact hr1)).2
        (by decide)
    rw [hputs2] at hf
    simp only [List.head?_cons, Option.some.injEq] at hf
    subst hf
    obtain ⟨h1, h2⟩ := habort (by
      show bs1.buffer.length ≠ bs0.buffer.length
      rw [hlen0, hlen1]; decide)
    exact ⟨_, _, h1, by rw [h2, hputs2], hlen0⟩
  · exact size_check_aborts.2 flags_default reader_mixed "" list_two
      (pair_tokens [line_0_1_1_1])
      (read_pair_main (main_init (pair_tokens [line_0_1_1_1]))) _ rfl rfl

end Siamese
